import Mathlib

set_option maxRecDepth 100000

/-!
Shallow embedding of the AES-256 implementation in this repository
(`src/utils/aes/galoisField.js`, `transformations.js`, `utils.js`,
`keyExpansion.js`, the encryption module and `decryption.js`).

Conventions of the embedding:
* JS numbers holding bytes are embedded as `Nat`; every bitwise
  operator of the source (`^`, `&`, `<<`) is the corresponding `Nat`
  operation, with the source's own `& 0xff` masks kept as written.
* JS array reads `a[i]` are embedded as `List.getD i d` with default
  `0` (resp. `[]`): inside the cipher every read is in range, and at
  the one boundary where the source can read past the end
  (`unpadData`, negative index) the embedding models the JS
  `undefined !== n` comparison explicitly.
* Functions that `throw` are embedded as `Except String`.
* The `roundDetails` / `expansionDetails` visualization payloads are
  pure observers and are omitted; `encryptText`'s `trackRounds = true`
  cipher path, which is a genuinely different computation of
  `cipherBytes`, is embedded verbatim.
-/

/-- Modelled from the spec: `constants.js` is not part of the provided
sources.  Spec section 4.2 fixes the table: "Two lookup tables of 256
entries each (S-box and its exact inverse)" holding the exact standard
FIPS-197 values bit-for-bit.  This is the standard AES S-box. -/
def S_BOX : List Nat := [
  0x63, 0x7c, 0x77, 0x7b, 0xf2, 0x6b, 0x6f, 0xc5, 0x30, 0x01, 0x67, 0x2b, 0xfe, 0xd7, 0xab, 0x76,
  0xca, 0x82, 0xc9, 0x7d, 0xfa, 0x59, 0x47, 0xf0, 0xad, 0xd4, 0xa2, 0xaf, 0x9c, 0xa4, 0x72, 0xc0,
  0xb7, 0xfd, 0x93, 0x26, 0x36, 0x3f, 0xf7, 0xcc, 0x34, 0xa5, 0xe5, 0xf1, 0x71, 0xd8, 0x31, 0x15,
  0x04, 0xc7, 0x23, 0xc3, 0x18, 0x96, 0x05, 0x9a, 0x07, 0x12, 0x80, 0xe2, 0xeb, 0x27, 0xb2, 0x75,
  0x09, 0x83, 0x2c, 0x1a, 0x1b, 0x6e, 0x5a, 0xa0, 0x52, 0x3b, 0xd6, 0xb3, 0x29, 0xe3, 0x2f, 0x84,
  0x53, 0xd1, 0x00, 0xed, 0x20, 0xfc, 0xb1, 0x5b, 0x6a, 0xcb, 0xbe, 0x39, 0x4a, 0x4c, 0x58, 0xcf,
  0xd0, 0xef, 0xaa, 0xfb, 0x43, 0x4d, 0x33, 0x85, 0x45, 0xf9, 0x02, 0x7f, 0x50, 0x3c, 0x9f, 0xa8,
  0x51, 0xa3, 0x40, 0x8f, 0x92, 0x9d, 0x38, 0xf5, 0xbc, 0xb6, 0xda, 0x21, 0x10, 0xff, 0xf3, 0xd2,
  0xcd, 0x0c, 0x13, 0xec, 0x5f, 0x97, 0x44, 0x17, 0xc4, 0xa7, 0x7e, 0x3d, 0x64, 0x5d, 0x19, 0x73,
  0x60, 0x81, 0x4f, 0xdc, 0x22, 0x2a, 0x90, 0x88, 0x46, 0xee, 0xb8, 0x14, 0xde, 0x5e, 0x0b, 0xdb,
  0xe0, 0x32, 0x3a, 0x0a, 0x49, 0x06, 0x24, 0x5c, 0xc2, 0xd3, 0xac, 0x62, 0x91, 0x95, 0xe4, 0x79,
  0xe7, 0xc8, 0x37, 0x6d, 0x8d, 0xd5, 0x4e, 0xa9, 0x6c, 0x56, 0xf4, 0xea, 0x65, 0x7a, 0xae, 0x08,
  0xba, 0x78, 0x25, 0x2e, 0x1c, 0xa6, 0xb4, 0xc6, 0xe8, 0xdd, 0x74, 0x1f, 0x4b, 0xbd, 0x8b, 0x8a,
  0x70, 0x3e, 0xb5, 0x66, 0x48, 0x03, 0xf6, 0x0e, 0x61, 0x35, 0x57, 0xb9, 0x86, 0xc1, 0x1d, 0x9e,
  0xe1, 0xf8, 0x98, 0x11, 0x69, 0xd9, 0x8e, 0x94, 0x9b, 0x1e, 0x87, 0xe9, 0xce, 0x55, 0x28, 0xdf,
  0x8c, 0xa1, 0x89, 0x0d, 0xbf, 0xe6, 0x42, 0x68, 0x41, 0x99, 0x2d, 0x0f, 0xb0, 0x54, 0xbb, 0x16]
/-- Modelled from the spec: the exact inverse table of `S_BOX`
(spec section 4.2), i.e. the standard AES inverse S-box. -/
def INVERSE_S_BOX : List Nat := [
  0x52, 0x09, 0x6a, 0xd5, 0x30, 0x36, 0xa5, 0x38, 0xbf, 0x40, 0xa3, 0x9e, 0x81, 0xf3, 0xd7, 0xfb,
  0x7c, 0xe3, 0x39, 0x82, 0x9b, 0x2f, 0xff, 0x87, 0x34, 0x8e, 0x43, 0x44, 0xc4, 0xde, 0xe9, 0xcb,
  0x54, 0x7b, 0x94, 0x32, 0xa6, 0xc2, 0x23, 0x3d, 0xee, 0x4c, 0x95, 0x0b, 0x42, 0xfa, 0xc3, 0x4e,
  0x08, 0x2e, 0xa1, 0x66, 0x28, 0xd9, 0x24, 0xb2, 0x76, 0x5b, 0xa2, 0x49, 0x6d, 0x8b, 0xd1, 0x25,
  0x72, 0xf8, 0xf6, 0x64, 0x86, 0x68, 0x98, 0x16, 0xd4, 0xa4, 0x5c, 0xcc, 0x5d, 0x65, 0xb6, 0x92,
  0x6c, 0x70, 0x48, 0x50, 0xfd, 0xed, 0xb9, 0xda, 0x5e, 0x15, 0x46, 0x57, 0xa7, 0x8d, 0x9d, 0x84,
  0x90, 0xd8, 0xab, 0x00, 0x8c, 0xbc, 0xd3, 0x0a, 0xf7, 0xe4, 0x58, 0x05, 0xb8, 0xb3, 0x45, 0x06,
  0xd0, 0x2c, 0x1e, 0x8f, 0xca, 0x3f, 0x0f, 0x02, 0xc1, 0xaf, 0xbd, 0x03, 0x01, 0x13, 0x8a, 0x6b,
  0x3a, 0x91, 0x11, 0x41, 0x4f, 0x67, 0xdc, 0xea, 0x97, 0xf2, 0xcf, 0xce, 0xf0, 0xb4, 0xe6, 0x73,
  0x96, 0xac, 0x74, 0x22, 0xe7, 0xad, 0x35, 0x85, 0xe2, 0xf9, 0x37, 0xe8, 0x1c, 0x75, 0xdf, 0x6e,
  0x47, 0xf1, 0x1a, 0x71, 0x1d, 0x29, 0xc5, 0x89, 0x6f, 0xb7, 0x62, 0x0e, 0xaa, 0x18, 0xbe, 0x1b,
  0xfc, 0x56, 0x3e, 0x4b, 0xc6, 0xd2, 0x79, 0x20, 0x9a, 0xdb, 0xc0, 0xfe, 0x78, 0xcd, 0x5a, 0xf4,
  0x1f, 0xdd, 0xa8, 0x33, 0x88, 0x07, 0xc7, 0x31, 0xb1, 0x12, 0x10, 0x59, 0x27, 0x80, 0xec, 0x5f,
  0x60, 0x51, 0x7f, 0xa9, 0x19, 0xb5, 0x4a, 0x0d, 0x2d, 0xe5, 0x7a, 0x9f, 0x93, 0xc9, 0x9c, 0xef,
  0xa0, 0xe0, 0x3b, 0x4d, 0xae, 0x2a, 0xf5, 0xb0, 0xc8, 0xeb, 0xbb, 0x3c, 0x83, 0x53, 0x99, 0x61,
  0x17, 0x2b, 0x04, 0x7e, 0xba, 0x77, 0xd6, 0x26, 0xe1, 0x69, 0x14, 0x63, 0x55, 0x21, 0x0c, 0x7d]

/-- Modelled from the spec: round constants, "14 round constants (Rcon)
indexed 1..14, each a single non-zero byte derived from successive
GF(2^8) doublings of 0x01" (spec section 4.2); index 0 is an unused
placeholder.  Key expansion for AES-256 reads indices 1..7 only. -/
def ROUND_CONSTANTS : List Nat :=
  [0x00, 0x01, 0x02, 0x04, 0x08, 0x10, 0x20, 0x40,
   0x80, 0x1b, 0x36, 0x6c, 0xd8, 0xab, 0x4d]

/-- Modelled from the spec: `constants.js` is missing; the key has
8 four-byte words (spec section 3: "Key: exactly 32 bytes"). -/
def KEY_SIZE_WORDS : Nat := 8

/-- Modelled from the spec: 14 rounds for AES-256 (spec section 4.6). -/
def NUMBER_OF_ROUNDS : Nat := 14

/-- Modelled from the spec: 16-byte blocks (spec section 3). -/
def BLOCK_SIZE : Nat := 16

/-! ## Galois field arithmetic (`galoisField.js`) -/

/-- `multiplyByTwo` from `galoisField.js`: left shift, conditional
reduction by 0x1b when the high bit was set, mask to one byte. -/
def multiplyByTwo (byte : Nat) : Nat :=
  let result := byte <<< 1
  let result := if byte &&& 0x80 ≠ 0 then result ^^^ 0x1b else result
  result &&& 0xff

/-- `multiplyByThree`: `(byte * 2) XOR byte`. -/
def multiplyByThree (byte : Nat) : Nat :=
  multiplyByTwo byte ^^^ byte

/-- `multiplyByNine`: `(byte * 8) XOR byte`. -/
def multiplyByNine (byte : Nat) : Nat :=
  multiplyByTwo (multiplyByTwo (multiplyByTwo byte)) ^^^ byte

/-- `multiplyByEleven`: `(byte * 8) XOR (byte * 2) XOR byte`. -/
def multiplyByEleven (byte : Nat) : Nat :=
  let times2 := multiplyByTwo byte
  let times8 := multiplyByTwo (multiplyByTwo times2)
  times8 ^^^ times2 ^^^ byte

/-- `multiplyByThirteen`: `(byte * 8) XOR (byte * 4) XOR byte`. -/
def multiplyByThirteen (byte : Nat) : Nat :=
  let times2 := multiplyByTwo byte
  let times4 := multiplyByTwo times2
  let times8 := multiplyByTwo times4
  times8 ^^^ times4 ^^^ byte

/-- `multiplyByFourteen`: `(byte * 8) XOR (byte * 4) XOR (byte * 2)`. -/
def multiplyByFourteen (byte : Nat) : Nat :=
  let times2 := multiplyByTwo byte
  let times4 := multiplyByTwo times2
  let times8 := multiplyByTwo times4
  times8 ^^^ times4 ^^^ times2

/-! ## State matrices and byte/hex utilities (`utils.js`) -/

/-- The 4x4 state matrix of `utils.js` (`state[row][col]` becomes the
field `mRowCol`).  The source always builds full 4x4 arrays, so a
fixed-shape structure is the faithful shape. -/
@[ext]
structure StateMat where
  m00 : Nat
  m01 : Nat
  m02 : Nat
  m03 : Nat
  m10 : Nat
  m11 : Nat
  m12 : Nat
  m13 : Nat
  m20 : Nat
  m21 : Nat
  m22 : Nat
  m23 : Nat
  m30 : Nat
  m31 : Nat
  m32 : Nat
  m33 : Nat
deriving Repr, DecidableEq, Inhabited

/-- `bytesToStateMatrix`: `state[row][col] = bytes[col * 4 + row]`. -/
def bytesToStateMatrix (bytes : List Nat) : StateMat where
  m00 := bytes.getD 0 0
  m10 := bytes.getD 1 0
  m20 := bytes.getD 2 0
  m30 := bytes.getD 3 0
  m01 := bytes.getD 4 0
  m11 := bytes.getD 5 0
  m21 := bytes.getD 6 0
  m31 := bytes.getD 7 0
  m02 := bytes.getD 8 0
  m12 := bytes.getD 9 0
  m22 := bytes.getD 10 0
  m32 := bytes.getD 11 0
  m03 := bytes.getD 12 0
  m13 := bytes.getD 13 0
  m23 := bytes.getD 14 0
  m33 := bytes.getD 15 0

/-- `stateMatrixToBytes`: push `state[row][col]` column by column. -/
def stateMatrixToBytes (state : StateMat) : List Nat :=
  [state.m00, state.m10, state.m20, state.m30,
   state.m01, state.m11, state.m21, state.m31,
   state.m02, state.m12, state.m22, state.m32,
   state.m03, state.m13, state.m23, state.m33]

/-- `padData`: append `paddingLength = 16 - len mod 16` bytes, each of
value `paddingLength` (the push loop appends exactly that list). -/
def padData (data : List Nat) : List Nat :=
  let paddingLength := BLOCK_SIZE - data.length % BLOCK_SIZE
  data ++ List.replicate paddingLength paddingLength

/-- `unpadData`: read the last byte as the padding length, reject 0 or
more than 16, then check the last `paddingLength` bytes.  A JS read
`data[data.length - i]` with `i > data.length` yields `undefined`,
which compares unequal to the padding length; the `i ≤ data.length`
guard models exactly that comparison. -/
def unpadData (data : List Nat) : Except String (List Nat) :=
  if data.length = 0 then .ok data
  else
    let paddingLength := data.getD (data.length - 1) 0
    if paddingLength > BLOCK_SIZE ∨ paddingLength = 0 then
      .error "Invalid padding"
    else if (List.range' 1 paddingLength).all
        (fun i => decide (i ≤ data.length) &&
          data.getD (data.length - i) 0 == paddingLength) then
      .ok (data.take (data.length - paddingLength))
    else
      .error "Invalid padding"

/-- The character class of the stripping regex in `hexToBytes`
(`[^0-9a-fA-F]` is removed, i.e. these are kept). -/
def isHexDigitJS (c : Char) : Bool :=
  ('0' ≤ c && c ≤ '9') || ('a' ≤ c && c ≤ 'f') || ('A' ≤ c && c ≤ 'F')

/-- Value of one hex digit, as `parseInt(-, 16)` assigns it. -/
def hexDigitVal (c : Char) : Nat :=
  if '0' ≤ c && c ≤ '9' then c.toNat - 48
  else if 'a' ≤ c && c ≤ 'f' then c.toNat - 87
  else if 'A' ≤ c && c ≤ 'F' then c.toNat - 55
  else 0

/-- The pairing loop of `hexToBytes`: `parseInt(cleanHex.substr(i, 2), 16)`
for `i = 0, 2, 4, ...`.  On an odd-length tail, `substr` returns a
single character and `parseInt` happily parses the lone digit. -/
def parseHexPairs : List Char → List Nat
  | [] => []
  | [c] => [hexDigitVal c]
  | c1 :: c2 :: rest => (16 * hexDigitVal c1 + hexDigitVal c2) :: parseHexPairs rest

/-- `hexToBytes`: strip every character outside `[0-9a-fA-F]`, then
decode two characters at a time. -/
def hexToBytes (hexString : String) : List Nat :=
  parseHexPairs (hexString.data.filter isHexDigitJS)

/-! ## Round transformations (`transformations.js`) -/

/-- `substituteBytes`: `newState[row][col] = S_BOX[state[row][col]]`. -/
def substituteBytes (state : StateMat) : StateMat where
  m00 := S_BOX.getD state.m00 0
  m01 := S_BOX.getD state.m01 0
  m02 := S_BOX.getD state.m02 0
  m03 := S_BOX.getD state.m03 0
  m10 := S_BOX.getD state.m10 0
  m11 := S_BOX.getD state.m11 0
  m12 := S_BOX.getD state.m12 0
  m13 := S_BOX.getD state.m13 0
  m20 := S_BOX.getD state.m20 0
  m21 := S_BOX.getD state.m21 0
  m22 := S_BOX.getD state.m22 0
  m23 := S_BOX.getD state.m23 0
  m30 := S_BOX.getD state.m30 0
  m31 := S_BOX.getD state.m31 0
  m32 := S_BOX.getD state.m32 0
  m33 := S_BOX.getD state.m33 0

/-- `inverseSubstituteBytes`: lookup in `INVERSE_S_BOX`. -/
def inverseSubstituteBytes (state : StateMat) : StateMat where
  m00 := INVERSE_S_BOX.getD state.m00 0
  m01 := INVERSE_S_BOX.getD state.m01 0
  m02 := INVERSE_S_BOX.getD state.m02 0
  m03 := INVERSE_S_BOX.getD state.m03 0
  m10 := INVERSE_S_BOX.getD state.m10 0
  m11 := INVERSE_S_BOX.getD state.m11 0
  m12 := INVERSE_S_BOX.getD state.m12 0
  m13 := INVERSE_S_BOX.getD state.m13 0
  m20 := INVERSE_S_BOX.getD state.m20 0
  m21 := INVERSE_S_BOX.getD state.m21 0
  m22 := INVERSE_S_BOX.getD state.m22 0
  m23 := INVERSE_S_BOX.getD state.m23 0
  m30 := INVERSE_S_BOX.getD state.m30 0
  m31 := INVERSE_S_BOX.getD state.m31 0
  m32 := INVERSE_S_BOX.getD state.m32 0
  m33 := INVERSE_S_BOX.getD state.m33 0

/-- `shiftRows`: row `r` rotated left by `r`. -/
def shiftRows (state : StateMat) : StateMat where
  m00 := state.m00
  m01 := state.m01
  m02 := state.m02
  m03 := state.m03
  m10 := state.m11
  m11 := state.m12
  m12 := state.m13
  m13 := state.m10
  m20 := state.m22
  m21 := state.m23
  m22 := state.m20
  m23 := state.m21
  m30 := state.m33
  m31 := state.m30
  m32 := state.m31
  m33 := state.m32

/-- `inverseShiftRows`: row `r` rotated right by `r`. -/
def inverseShiftRows (state : StateMat) : StateMat where
  m00 := state.m00
  m01 := state.m01
  m02 := state.m02
  m03 := state.m03
  m10 := state.m13
  m11 := state.m10
  m12 := state.m11
  m13 := state.m12
  m20 := state.m22
  m21 := state.m23
  m22 := state.m20
  m23 := state.m21
  m30 := state.m31
  m31 := state.m32
  m32 := state.m33
  m33 := state.m30

/-- `mixColumns`: per column `(2,3,1,1)` circulant matrix product over
GF(2^8), exactly the four assignments of the source loop. -/
def mixColumns (state : StateMat) : StateMat where
  m00 := multiplyByTwo state.m00 ^^^ multiplyByThree state.m10 ^^^ state.m20 ^^^ state.m30
  m10 := state.m00 ^^^ multiplyByTwo state.m10 ^^^ multiplyByThree state.m20 ^^^ state.m30
  m20 := state.m00 ^^^ state.m10 ^^^ multiplyByTwo state.m20 ^^^ multiplyByThree state.m30
  m30 := multiplyByThree state.m00 ^^^ state.m10 ^^^ state.m20 ^^^ multiplyByTwo state.m30
  m01 := multiplyByTwo state.m01 ^^^ multiplyByThree state.m11 ^^^ state.m21 ^^^ state.m31
  m11 := state.m01 ^^^ multiplyByTwo state.m11 ^^^ multiplyByThree state.m21 ^^^ state.m31
  m21 := state.m01 ^^^ state.m11 ^^^ multiplyByTwo state.m21 ^^^ multiplyByThree state.m31
  m31 := multiplyByThree state.m01 ^^^ state.m11 ^^^ state.m21 ^^^ multiplyByTwo state.m31
  m02 := multiplyByTwo state.m02 ^^^ multiplyByThree state.m12 ^^^ state.m22 ^^^ state.m32
  m12 := state.m02 ^^^ multiplyByTwo state.m12 ^^^ multiplyByThree state.m22 ^^^ state.m32
  m22 := state.m02 ^^^ state.m12 ^^^ multiplyByTwo state.m22 ^^^ multiplyByThree state.m32
  m32 := multiplyByThree state.m02 ^^^ state.m12 ^^^ state.m22 ^^^ multiplyByTwo state.m32
  m03 := multiplyByTwo state.m03 ^^^ multiplyByThree state.m13 ^^^ state.m23 ^^^ state.m33
  m13 := state.m03 ^^^ multiplyByTwo state.m13 ^^^ multiplyByThree state.m23 ^^^ state.m33
  m23 := state.m03 ^^^ state.m13 ^^^ multiplyByTwo state.m23 ^^^ multiplyByThree state.m33
  m33 := multiplyByThree state.m03 ^^^ state.m13 ^^^ state.m23 ^^^ multiplyByTwo state.m33

/-- `inverseMixColumns`: per column `(14,11,13,9)` circulant matrix. -/
def inverseMixColumns (state : StateMat) : StateMat where
  m00 := multiplyByFourteen state.m00 ^^^ multiplyByEleven state.m10 ^^^
    multiplyByThirteen state.m20 ^^^ multiplyByNine state.m30
  m10 := multiplyByNine state.m00 ^^^ multiplyByFourteen state.m10 ^^^
    multiplyByEleven state.m20 ^^^ multiplyByThirteen state.m30
  m20 := multiplyByThirteen state.m00 ^^^ multiplyByNine state.m10 ^^^
    multiplyByFourteen state.m20 ^^^ multiplyByEleven state.m30
  m30 := multiplyByEleven state.m00 ^^^ multiplyByThirteen state.m10 ^^^
    multiplyByNine state.m20 ^^^ multiplyByFourteen state.m30
  m01 := multiplyByFourteen state.m01 ^^^ multiplyByEleven state.m11 ^^^
    multiplyByThirteen state.m21 ^^^ multiplyByNine state.m31
  m11 := multiplyByNine state.m01 ^^^ multiplyByFourteen state.m11 ^^^
    multiplyByEleven state.m21 ^^^ multiplyByThirteen state.m31
  m21 := multiplyByThirteen state.m01 ^^^ multiplyByNine state.m11 ^^^
    multiplyByFourteen state.m21 ^^^ multiplyByEleven state.m31
  m31 := multiplyByEleven state.m01 ^^^ multiplyByThirteen state.m11 ^^^
    multiplyByNine state.m21 ^^^ multiplyByFourteen state.m31
  m02 := multiplyByFourteen state.m02 ^^^ multiplyByEleven state.m12 ^^^
    multiplyByThirteen state.m22 ^^^ multiplyByNine state.m32
  m12 := multiplyByNine state.m02 ^^^ multiplyByFourteen state.m12 ^^^
    multiplyByEleven state.m22 ^^^ multiplyByThirteen state.m32
  m22 := multiplyByThirteen state.m02 ^^^ multiplyByNine state.m12 ^^^
    multiplyByFourteen state.m22 ^^^ multiplyByEleven state.m32
  m32 := multiplyByEleven state.m02 ^^^ multiplyByThirteen state.m12 ^^^
    multiplyByNine state.m22 ^^^ multiplyByFourteen state.m32
  m03 := multiplyByFourteen state.m03 ^^^ multiplyByEleven state.m13 ^^^
    multiplyByThirteen state.m23 ^^^ multiplyByNine state.m33
  m13 := multiplyByNine state.m03 ^^^ multiplyByFourteen state.m13 ^^^
    multiplyByEleven state.m23 ^^^ multiplyByThirteen state.m33
  m23 := multiplyByThirteen state.m03 ^^^ multiplyByNine state.m13 ^^^
    multiplyByFourteen state.m23 ^^^ multiplyByEleven state.m33
  m33 := multiplyByEleven state.m03 ^^^ multiplyByThirteen state.m13 ^^^
    multiplyByNine state.m23 ^^^ multiplyByFourteen state.m33

/-- `addRoundKey`: cell-wise XOR with the round key. -/
def addRoundKey (state roundKey : StateMat) : StateMat where
  m00 := state.m00 ^^^ roundKey.m00
  m01 := state.m01 ^^^ roundKey.m01
  m02 := state.m02 ^^^ roundKey.m02
  m03 := state.m03 ^^^ roundKey.m03
  m10 := state.m10 ^^^ roundKey.m10
  m11 := state.m11 ^^^ roundKey.m11
  m12 := state.m12 ^^^ roundKey.m12
  m13 := state.m13 ^^^ roundKey.m13
  m20 := state.m20 ^^^ roundKey.m20
  m21 := state.m21 ^^^ roundKey.m21
  m22 := state.m22 ^^^ roundKey.m22
  m23 := state.m23 ^^^ roundKey.m23
  m30 := state.m30 ^^^ roundKey.m30
  m31 := state.m31 ^^^ roundKey.m31
  m32 := state.m32 ^^^ roundKey.m32
  m33 := state.m33 ^^^ roundKey.m33

/-! ## Key expansion (`keyExpansion.js`) -/

/-- `rotateWord`: `[a, b, c, d]` becomes `[b, c, d, a]`. -/
def rotateWord (word : List Nat) : List Nat :=
  [word.getD 1 0, word.getD 2 0, word.getD 3 0, word.getD 0 0]

/-- `substituteWord`: S-box applied to each byte of the word. -/
def substituteWord (word : List Nat) : List Nat :=
  word.map (fun byte => S_BOX.getD byte 0)

/-- `xorWords`: `word1.map((byte, index) => byte ^ word2[index])`,
written as structural recursion on `word1` with `word2` consumed in
step (an out-of-range JS read is `undefined`, which XORs as 0). -/
def xorWords : List Nat → List Nat → List Nat
  | [], _ => []
  | byte :: rest, word2 => (byte ^^^ word2.headD 0) :: xorWords rest (word2.drop 1)

/-- The 60-word array built by `expandKey`: words 0..7 come from the
key; the loop for `i = 8 .. 59` appends
`xorWords(temp, words[i - 8])` where `temp` is `words[i - 1]`
transformed according to `i mod 8`. -/
def keyWords (key : List Nat) : List (List Nat) :=
  let totalWords := 4 * (NUMBER_OF_ROUNDS + 1)
  let initWords := (List.range KEY_SIZE_WORDS).map fun i =>
    [key.getD (4 * i) 0, key.getD (4 * i + 1) 0,
     key.getD (4 * i + 2) 0, key.getD (4 * i + 3) 0]
  (List.range' KEY_SIZE_WORDS (totalWords - KEY_SIZE_WORDS)).foldl
    (fun words i =>
      let temp := words.getD (i - 1) []
      let temp :=
        if i % KEY_SIZE_WORDS = 0 then
          let t := substituteWord (rotateWord temp)
          t.set 0 (t.getD 0 0 ^^^ ROUND_CONSTANTS.getD (i / KEY_SIZE_WORDS) 0)
        else if i % KEY_SIZE_WORDS = 4 then
          substituteWord temp
        else temp
      words ++ [xorWords temp (words.getD (i - KEY_SIZE_WORDS) [])])
    initWords

/-- The reshape loop of `expandKey`: `roundKey[byteIndex][wordIndex] =
words[round * 4 + wordIndex][byteIndex]` (words become columns). -/
def wordsToRoundKey (w0 w1 w2 w3 : List Nat) : StateMat where
  m00 := w0.getD 0 0
  m01 := w1.getD 0 0
  m02 := w2.getD 0 0
  m03 := w3.getD 0 0
  m10 := w0.getD 1 0
  m11 := w1.getD 1 0
  m12 := w2.getD 1 0
  m13 := w3.getD 1 0
  m20 := w0.getD 2 0
  m21 := w1.getD 2 0
  m22 := w2.getD 2 0
  m23 := w3.getD 2 0
  m30 := w0.getD 3 0
  m31 := w1.getD 3 0
  m32 := w2.getD 3 0
  m33 := w3.getD 3 0

/-- `expandKey` (its `roundKeys` result; `expansionDetails` is the
omitted visualization payload): 15 round-key matrices reshaped from
the 60 words. -/
def expandKey (key : List Nat) : List StateMat :=
  let words := keyWords key
  (List.range (NUMBER_OF_ROUNDS + 1)).map fun round =>
    wordsToRoundKey (words.getD (round * 4) []) (words.getD (round * 4 + 1) [])
      (words.getD (round * 4 + 2) []) (words.getD (round * 4 + 3) [])

/-! ## Block and stream encryption / decryption -/

/-- The per-block slicing common to all four stream loops
(`for (i = 0; i < len; i += 16) slice(i, i + 16)`, and the tracked
paths' `numBlocks = len / 16` loop, which visits the same slices). -/
def chunks16 (l : List Nat) : List (List Nat) :=
  if h : l = [] then []
  else l.take 16 :: chunks16 (l.drop 16)
termination_by l.length
decreasing_by
  have hl : 0 < l.length := List.length_pos.mpr h
  simp only [List.length_drop]
  omega

/-- `encryptBlock` (its `encryptedBlock` result; `trackRounds` only
fills the omitted `roundDetails`): initial AddRoundKey, 13 main
rounds, final round without MixColumns. -/
def encryptBlock (block : List Nat) (roundKeys : List StateMat) : List Nat :=
  let state := bytesToStateMatrix block
  let state := addRoundKey state (roundKeys.getD 0 default)
  let state := (List.range' 1 (NUMBER_OF_ROUNDS - 1)).foldl
    (fun s round =>
      addRoundKey (mixColumns (shiftRows (substituteBytes s))) (roundKeys.getD round default))
    state
  stateMatrixToBytes (addRoundKey (shiftRows (substituteBytes state)) (roundKeys.getD NUMBER_OF_ROUNDS default))

/-- `decryptBlock` (its `decryptedBlock` result): AddRoundKey with the
last round key, main rounds 13 down to 1, final round without
InverseMixColumns. -/
def decryptBlock (block : List Nat) (roundKeys : List StateMat) : List Nat :=
  let state := bytesToStateMatrix block
  let state := addRoundKey state (roundKeys.getD NUMBER_OF_ROUNDS default)
  let state := (List.range' 1 (NUMBER_OF_ROUNDS - 1)).reverse.foldl
    (fun s round =>
      inverseMixColumns (addRoundKey (inverseSubstituteBytes (inverseShiftRows s)) (roundKeys.getD round default)))
    state
  stateMatrixToBytes (addRoundKey (inverseSubstituteBytes (inverseShiftRows state)) (roundKeys.getD 0 default))

/-- `encryptText` (its `cipherBytes` result).  With `trackRounds` the
source processes all blocks round by round, collecting the complete
cipher text after each round; without it, each block goes through
`encryptBlock` independently. -/
def encryptText (plainBytes key : List Nat) (trackRounds : Bool) : List Nat :=
  let paddedData := padData plainBytes
  let roundKeys := expandKey key
  if trackRounds then
    let blockStates := (chunks16 paddedData).map bytesToStateMatrix
    let blockStates := blockStates.map fun s => addRoundKey s (roundKeys.getD 0 default)
    let blockStates := (List.range' 1 (NUMBER_OF_ROUNDS - 1)).foldl
      (fun states round => states.map fun s =>
        addRoundKey (mixColumns (shiftRows (substituteBytes s))) (roundKeys.getD round default))
      blockStates
    let blockStates := blockStates.map fun s =>
      addRoundKey (shiftRows (substituteBytes s)) (roundKeys.getD NUMBER_OF_ROUNDS default)
    (blockStates.map stateMatrixToBytes).flatten
  else
    ((chunks16 paddedData).map fun block => encryptBlock block roundKeys).flatten

/-- `decryptText` (its `plainBytes` result, an `Except` because
`unpadData` can throw).  Mirrors `encryptText`'s two paths; both end
by unpadding the concatenated plaintext blocks. -/
def decryptText (cipherBytes key : List Nat) (trackRounds : Bool) :
    Except String (List Nat) :=
  let roundKeys := expandKey key
  if trackRounds then
    let blockStates := (chunks16 cipherBytes).map bytesToStateMatrix
    let blockStates := blockStates.map fun s =>
      addRoundKey s (roundKeys.getD NUMBER_OF_ROUNDS default)
    let blockStates := (List.range' 1 (NUMBER_OF_ROUNDS - 1)).reverse.foldl
      (fun states round => states.map fun s =>
        inverseMixColumns (addRoundKey (inverseSubstituteBytes (inverseShiftRows s)) (roundKeys.getD round default)))
      blockStates
    let blockStates := blockStates.map fun s =>
      addRoundKey (inverseSubstituteBytes (inverseShiftRows s)) (roundKeys.getD 0 default)
    unpadData ((blockStates.map stateMatrixToBytes).flatten)
  else
    unpadData (((chunks16 cipherBytes).map fun block => decryptBlock block roundKeys).flatten)

/-- The word transformation of the key-expansion recurrence as the
spec states it (claim C3): RotWord, SubWord and an XOR with
`(Rcon[i/8], 0, 0, 0)` when `i mod 8 = 0`; SubWord alone when
`i mod 8 = 4`; identity otherwise. -/
def keyScheduleTransform (i : Nat) (w : List Nat) : List Nat :=
  if i % 8 = 0 then
    xorWords (substituteWord (rotateWord w)) [ROUND_CONSTANTS.getD (i / 8) 0, 0, 0, 0]
  else if i % 8 = 4 then
    substituteWord w
  else w

/-- All sixteen cells of a state matrix are bytes (below 256). -/
def cellsLt (s : StateMat) : Prop :=
  s.m00 < 256 ∧ s.m01 < 256 ∧ s.m02 < 256 ∧ s.m03 < 256 ∧
  s.m10 < 256 ∧ s.m11 < 256 ∧ s.m12 < 256 ∧ s.m13 < 256 ∧
  s.m20 < 256 ∧ s.m21 < 256 ∧ s.m22 < 256 ∧ s.m23 < 256 ∧
  s.m30 < 256 ∧ s.m31 < 256 ∧ s.m32 < 256 ∧ s.m33 < 256

/-! ## Generic list access helpers -/

theorem getD_of_lt {α : Type} (l : List α) (n : Nat) (d : α) (h : n < l.length) :
    l.getD n d = l[n] := by
  simp [List.getD_eq_getElem?_getD, List.getElem?_eq_getElem h]

theorem getD_of_le {α : Type} (l : List α) (n : Nat) (d : α) (h : l.length ≤ n) :
    l.getD n d = d := by
  simp [List.getD_eq_getElem?_getD, List.getElem?_eq_none h]

theorem getD_mem_or_default {α : Type} (l : List α) (n : Nat) (d : α) :
    l.getD n d ∈ l ∨ l.getD n d = d := by
  rcases Nat.lt_or_ge n l.length with h | h
  · rw [getD_of_lt l n d h]; exact Or.inl (List.getElem_mem h)
  · exact Or.inr (getD_of_le l n d h)

theorem getD_lt_of_all {l : List Nat} {n m d : Nat}
    (hl : ∀ x ∈ l, x < m) (hd : d < m) : l.getD n d < m := by
  rcases getD_mem_or_default l n d with h | h
  · exact hl _ h
  · rw [h]; exact hd

/-! ## XOR facts -/

instance : Std.Associative (α := Nat) (· ^^^ ·) := ⟨Nat.xor_assoc⟩

instance : Std.Commutative (α := Nat) (· ^^^ ·) := ⟨Nat.xor_comm⟩

theorem xor_lt_256 {a b : Nat} (ha : a < 256) (hb : b < 256) : a ^^^ b < 256 := by
  have := Nat.xor_lt_two_pow (n := 8) (by simpa using ha) (by simpa using hb)
  simpa using this

/-! ## Linearity of the GF(2^8) constant multipliers over XOR -/

theorem shiftLeft_one_xor (u v : Nat) : (u ^^^ v) <<< 1 = u <<< 1 ^^^ v <<< 1 := by
  apply Nat.eq_of_testBit_eq
  intro i
  simp only [Nat.testBit_shiftLeft, Nat.testBit_xor]
  cases h1 : decide (1 ≤ i) <;> simp

theorem and_128_cases (x : Nat) : x &&& 128 = 0 ∨ x &&& 128 = 128 := by
  have h := Nat.and_two_pow x 7
  norm_num at h
  rcases Bool.eq_false_or_eq_true (x.testBit 7) with hb | hb <;> rw [hb] at h <;> simp at h <;> omega

theorem multiplyByTwo_xor (a b : Nat) :
    multiplyByTwo (a ^^^ b) = multiplyByTwo a ^^^ multiplyByTwo b := by
  have hand : (a ^^^ b) &&& 128 = (a &&& 128) ^^^ (b &&& 128) := Nat.and_xor_distrib_right
  simp only [multiplyByTwo]
  rcases and_128_cases a with ha | ha <;> rcases and_128_cases b with hb | hb <;>
      rw [ha, hb] at hand <;> simp only [Nat.zero_xor, Nat.xor_zero, Nat.xor_self] at hand
  · simp only [ha, hb, hand]
    norm_num
    rw [shiftLeft_one_xor, ← Nat.and_xor_distrib_right]
  · simp only [ha, hb, hand]
    norm_num
    rw [shiftLeft_one_xor, ← Nat.and_xor_distrib_right]
    congr 1
    ac_rfl
  · simp only [ha, hb, hand]
    norm_num
    rw [shiftLeft_one_xor, ← Nat.and_xor_distrib_right]
    congr 1
    ac_rfl
  · simp only [ha, hb, hand]
    norm_num
    rw [shiftLeft_one_xor, ← Nat.and_xor_distrib_right]
    congr 1
    calc a <<< 1 ^^^ b <<< 1
        = (a <<< 1 ^^^ b <<< 1) ^^^ (27 ^^^ 27) := by norm_num
      _ = (a <<< 1 ^^^ 27) ^^^ (b <<< 1 ^^^ 27) := by ac_rfl

theorem multiplyByThree_xor (a b : Nat) :
    multiplyByThree (a ^^^ b) = multiplyByThree a ^^^ multiplyByThree b := by
  simp only [multiplyByThree, multiplyByTwo_xor]
  ac_rfl

theorem multiplyByNine_xor (a b : Nat) :
    multiplyByNine (a ^^^ b) = multiplyByNine a ^^^ multiplyByNine b := by
  simp only [multiplyByNine, multiplyByTwo_xor]
  ac_rfl

theorem multiplyByEleven_xor (a b : Nat) :
    multiplyByEleven (a ^^^ b) = multiplyByEleven a ^^^ multiplyByEleven b := by
  simp only [multiplyByEleven, multiplyByTwo_xor]
  ac_rfl

theorem multiplyByThirteen_xor (a b : Nat) :
    multiplyByThirteen (a ^^^ b) = multiplyByThirteen a ^^^ multiplyByThirteen b := by
  simp only [multiplyByThirteen, multiplyByTwo_xor]
  ac_rfl

theorem multiplyByFourteen_xor (a b : Nat) :
    multiplyByFourteen (a ^^^ b) = multiplyByFourteen a ^^^ multiplyByFourteen b := by
  simp only [multiplyByFourteen, multiplyByTwo_xor]
  ac_rfl

theorem multiplyByTwo_lt (x : Nat) : multiplyByTwo x < 256 := by
  simp only [multiplyByTwo]
  exact Nat.lt_succ_of_le (Nat.and_le_right)

theorem multiplyByThree_lt {x : Nat} (h : x < 256) : multiplyByThree x < 256 :=
  xor_lt_256 (multiplyByTwo_lt x) h

theorem multiplyByNine_lt {x : Nat} (h : x < 256) : multiplyByNine x < 256 :=
  xor_lt_256 (multiplyByTwo_lt _) h

theorem multiplyByEleven_lt {x : Nat} (h : x < 256) : multiplyByEleven x < 256 :=
  xor_lt_256 (xor_lt_256 (multiplyByTwo_lt _) (multiplyByTwo_lt _)) h

theorem multiplyByThirteen_lt {x : Nat} (h : x < 256) : multiplyByThirteen x < 256 :=
  xor_lt_256 (xor_lt_256 (multiplyByTwo_lt _) (multiplyByTwo_lt _)) h

theorem multiplyByFourteen_lt (x : Nat) : multiplyByFourteen x < 256 :=
  xor_lt_256 (xor_lt_256 (multiplyByTwo_lt _) (multiplyByTwo_lt _)) (multiplyByTwo_lt _)

/-! ## Table facts, checked by evaluation -/

theorem S_BOX_entries_lt : ∀ x ∈ S_BOX, x < 256 := by decide

theorem INVERSE_S_BOX_entries_lt : ∀ x ∈ INVERSE_S_BOX, x < 256 := by decide

theorem ROUND_CONSTANTS_entries_lt : ∀ x ∈ ROUND_CONSTANTS, x < 256 := by decide

theorem invSbox_sbox : ∀ x < 256, INVERSE_S_BOX.getD (S_BOX.getD x 0) 0 = x := by decide

theorem sbox_getD_lt (x : Nat) : S_BOX.getD x 0 < 256 :=
  getD_lt_of_all S_BOX_entries_lt (by norm_num)

/-! ## The four circulant-product identities behind MixColumns'
invertibility, checked by evaluation on every byte -/

theorem gfA0 : ∀ x < 256,
    multiplyByFourteen (multiplyByTwo x) ^^^ multiplyByEleven x ^^^
      multiplyByThirteen x ^^^ multiplyByNine (multiplyByThree x) = x := by decide

theorem gfA1 : ∀ x < 256,
    multiplyByFourteen (multiplyByThree x) ^^^ multiplyByEleven (multiplyByTwo x) ^^^
      multiplyByThirteen x ^^^ multiplyByNine x = 0 := by decide

theorem gfA2 : ∀ x < 256,
    multiplyByFourteen x ^^^ multiplyByEleven (multiplyByThree x) ^^^
      multiplyByThirteen (multiplyByTwo x) ^^^ multiplyByNine x = 0 := by decide

theorem gfA3 : ∀ x < 256,
    multiplyByFourteen x ^^^ multiplyByEleven x ^^^
      multiplyByThirteen (multiplyByThree x) ^^^ multiplyByNine (multiplyByTwo x) = 0 := by decide

/-! ## Inverse round transformations undo the forward ones -/

theorem inverseShiftRows_shiftRows (s : StateMat) :
    inverseShiftRows (shiftRows s) = s := rfl

theorem addRoundKey_addRoundKey (s k : StateMat) :
    addRoundKey (addRoundKey s k) k = s := by
  ext <;> simp [addRoundKey, Nat.xor_assoc]

theorem inverseSubstituteBytes_substituteBytes (s : StateMat) (h : cellsLt s) :
    inverseSubstituteBytes (substituteBytes s) = s := by
  obtain ⟨h00, h01, h02, h03, h10, h11, h12, h13,
    h20, h21, h22, h23, h30, h31, h32, h33⟩ := h
  ext <;> simp only [substituteBytes, inverseSubstituteBytes] <;>
    exact invSbox_sbox _ (by assumption)

theorem invMix_mix_col (s0 s1 s2 s3 : Nat)
    (h0 : s0 < 256) (h1 : s1 < 256) (h2 : s2 < 256) (h3 : s3 < 256) :
    (multiplyByFourteen (multiplyByTwo s0 ^^^ multiplyByThree s1 ^^^ s2 ^^^ s3) ^^^
       multiplyByEleven (s0 ^^^ multiplyByTwo s1 ^^^ multiplyByThree s2 ^^^ s3) ^^^
       multiplyByThirteen (s0 ^^^ s1 ^^^ multiplyByTwo s2 ^^^ multiplyByThree s3) ^^^
       multiplyByNine (multiplyByThree s0 ^^^ s1 ^^^ s2 ^^^ multiplyByTwo s3) = s0) ∧
    (multiplyByNine (multiplyByTwo s0 ^^^ multiplyByThree s1 ^^^ s2 ^^^ s3) ^^^
       multiplyByFourteen (s0 ^^^ multiplyByTwo s1 ^^^ multiplyByThree s2 ^^^ s3) ^^^
       multiplyByEleven (s0 ^^^ s1 ^^^ multiplyByTwo s2 ^^^ multiplyByThree s3) ^^^
       multiplyByThirteen (multiplyByThree s0 ^^^ s1 ^^^ s2 ^^^ multiplyByTwo s3) = s1) ∧
    (multiplyByThirteen (multiplyByTwo s0 ^^^ multiplyByThree s1 ^^^ s2 ^^^ s3) ^^^
       multiplyByNine (s0 ^^^ multiplyByTwo s1 ^^^ multiplyByThree s2 ^^^ s3) ^^^
       multiplyByFourteen (s0 ^^^ s1 ^^^ multiplyByTwo s2 ^^^ multiplyByThree s3) ^^^
       multiplyByEleven (multiplyByThree s0 ^^^ s1 ^^^ s2 ^^^ multiplyByTwo s3) = s2) ∧
    (multiplyByEleven (multiplyByTwo s0 ^^^ multiplyByThree s1 ^^^ s2 ^^^ s3) ^^^
       multiplyByThirteen (s0 ^^^ multiplyByTwo s1 ^^^ multiplyByThree s2 ^^^ s3) ^^^
       multiplyByNine (s0 ^^^ s1 ^^^ multiplyByTwo s2 ^^^ multiplyByThree s3) ^^^
       multiplyByFourteen (multiplyByThree s0 ^^^ s1 ^^^ s2 ^^^ multiplyByTwo s3) = s3) := by
  refine ⟨?_, ?_, ?_, ?_⟩ <;>
    simp only [multiplyByFourteen_xor, multiplyByEleven_xor, multiplyByThirteen_xor,
      multiplyByNine_xor]
  · calc
      multiplyByFourteen (multiplyByTwo s0) ^^^ multiplyByFourteen (multiplyByThree s1) ^^^
            multiplyByFourteen s2 ^^^ multiplyByFourteen s3 ^^^
          (multiplyByEleven s0 ^^^ multiplyByEleven (multiplyByTwo s1) ^^^
            multiplyByEleven (multiplyByThree s2) ^^^ multiplyByEleven s3) ^^^
          (multiplyByThirteen s0 ^^^ multiplyByThirteen s1 ^^^
            multiplyByThirteen (multiplyByTwo s2) ^^^ multiplyByThirteen (multiplyByThree s3)) ^^^
          (multiplyByNine (multiplyByThree s0) ^^^ multiplyByNine s1 ^^^ multiplyByNine s2 ^^^
            multiplyByNine (multiplyByTwo s3)) =
          (multiplyByFourteen (multiplyByTwo s0) ^^^ multiplyByEleven s0 ^^^
              multiplyByThirteen s0 ^^^ multiplyByNine (multiplyByThree s0)) ^^^
            (multiplyByFourteen (multiplyByThree s1) ^^^ multiplyByEleven (multiplyByTwo s1) ^^^
              multiplyByThirteen s1 ^^^ multiplyByNine s1) ^^^
            (multiplyByFourteen s2 ^^^ multiplyByEleven (multiplyByThree s2) ^^^
              multiplyByThirteen (multiplyByTwo s2) ^^^ multiplyByNine s2) ^^^
            (multiplyByFourteen s3 ^^^ multiplyByEleven s3 ^^^
              multiplyByThirteen (multiplyByThree s3) ^^^ multiplyByNine (multiplyByTwo s3)) := by
        ac_rfl
      _ = s0 := by rw [gfA0 s0 h0, gfA1 s1 h1, gfA2 s2 h2, gfA3 s3 h3]; simp
  · calc
      multiplyByNine (multiplyByTwo s0) ^^^ multiplyByNine (multiplyByThree s1) ^^^
            multiplyByNine s2 ^^^ multiplyByNine s3 ^^^
          (multiplyByFourteen s0 ^^^ multiplyByFourteen (multiplyByTwo s1) ^^^
            multiplyByFourteen (multiplyByThree s2) ^^^ multiplyByFourteen s3) ^^^
          (multiplyByEleven s0 ^^^ multiplyByEleven s1 ^^^
            multiplyByEleven (multiplyByTwo s2) ^^^ multiplyByEleven (multiplyByThree s3)) ^^^
          (multiplyByThirteen (multiplyByThree s0) ^^^ multiplyByThirteen s1 ^^^
            multiplyByThirteen s2 ^^^ multiplyByThirteen (multiplyByTwo s3)) =
          (multiplyByFourteen s0 ^^^ multiplyByEleven s0 ^^^
              multiplyByThirteen (multiplyByThree s0) ^^^ multiplyByNine (multiplyByTwo s0)) ^^^
            (multiplyByFourteen (multiplyByTwo s1) ^^^ multiplyByEleven s1 ^^^
              multiplyByThirteen s1 ^^^ multiplyByNine (multiplyByThree s1)) ^^^
            (multiplyByFourteen (multiplyByThree s2) ^^^ multiplyByEleven (multiplyByTwo s2) ^^^
              multiplyByThirteen s2 ^^^ multiplyByNine s2) ^^^
            (multiplyByFourteen s3 ^^^ multiplyByEleven (multiplyByThree s3) ^^^
              multiplyByThirteen (multiplyByTwo s3) ^^^ multiplyByNine s3) := by
        ac_rfl
      _ = s1 := by rw [gfA3 s0 h0, gfA0 s1 h1, gfA1 s2 h2, gfA2 s3 h3]; simp
  · calc
      multiplyByThirteen (multiplyByTwo s0) ^^^ multiplyByThirteen (multiplyByThree s1) ^^^
            multiplyByThirteen s2 ^^^ multiplyByThirteen s3 ^^^
          (multiplyByNine s0 ^^^ multiplyByNine (multiplyByTwo s1) ^^^
            multiplyByNine (multiplyByThree s2) ^^^ multiplyByNine s3) ^^^
          (multiplyByFourteen s0 ^^^ multiplyByFourteen s1 ^^^
            multiplyByFourteen (multiplyByTwo s2) ^^^ multiplyByFourteen (multiplyByThree s3)) ^^^
          (multiplyByEleven (multiplyByThree s0) ^^^ multiplyByEleven s1 ^^^
            multiplyByEleven s2 ^^^ multiplyByEleven (multiplyByTwo s3)) =
          (multiplyByFourteen s0 ^^^ multiplyByEleven (multiplyByThree s0) ^^^
              multiplyByThirteen (multiplyByTwo s0) ^^^ multiplyByNine s0) ^^^
            (multiplyByFourteen s1 ^^^ multiplyByEleven s1 ^^^
              multiplyByThirteen (multiplyByThree s1) ^^^ multiplyByNine (multiplyByTwo s1)) ^^^
            (multiplyByFourteen (multiplyByTwo s2) ^^^ multiplyByEleven s2 ^^^
              multiplyByThirteen s2 ^^^ multiplyByNine (multiplyByThree s2)) ^^^
            (multiplyByFourteen (multiplyByThree s3) ^^^ multiplyByEleven (multiplyByTwo s3) ^^^
              multiplyByThirteen s3 ^^^ multiplyByNine s3) := by
        ac_rfl
      _ = s2 := by rw [gfA2 s0 h0, gfA3 s1 h1, gfA0 s2 h2, gfA1 s3 h3]; simp
  · calc
      multiplyByEleven (multiplyByTwo s0) ^^^ multiplyByEleven (multiplyByThree s1) ^^^
            multiplyByEleven s2 ^^^ multiplyByEleven s3 ^^^
          (multiplyByThirteen s0 ^^^ multiplyByThirteen (multiplyByTwo s1) ^^^
            multiplyByThirteen (multiplyByThree s2) ^^^ multiplyByThirteen s3) ^^^
          (multiplyByNine s0 ^^^ multiplyByNine s1 ^^^
            multiplyByNine (multiplyByTwo s2) ^^^ multiplyByNine (multiplyByThree s3)) ^^^
          (multiplyByFourteen (multiplyByThree s0) ^^^ multiplyByFourteen s1 ^^^
            multiplyByFourteen s2 ^^^ multiplyByFourteen (multiplyByTwo s3)) =
          (multiplyByFourteen (multiplyByThree s0) ^^^ multiplyByEleven (multiplyByTwo s0) ^^^
              multiplyByThirteen s0 ^^^ multiplyByNine s0) ^^^
            (multiplyByFourteen s1 ^^^ multiplyByEleven (multiplyByThree s1) ^^^
              multiplyByThirteen (multiplyByTwo s1) ^^^ multiplyByNine s1) ^^^
            (multiplyByFourteen s2 ^^^ multiplyByEleven s2 ^^^
              multiplyByThirteen (multiplyByThree s2) ^^^ multiplyByNine (multiplyByTwo s2)) ^^^
            (multiplyByFourteen (multiplyByTwo s3) ^^^ multiplyByEleven s3 ^^^
              multiplyByThirteen s3 ^^^ multiplyByNine (multiplyByThree s3)) := by
        ac_rfl
      _ = s3 := by rw [gfA1 s0 h0, gfA2 s1 h1, gfA3 s2 h2, gfA0 s3 h3]; simp

theorem inverseMixColumns_mixColumns (s : StateMat) (h : cellsLt s) :
    inverseMixColumns (mixColumns s) = s := by
  obtain ⟨h00, h01, h02, h03, h10, h11, h12, h13,
    h20, h21, h22, h23, h30, h31, h32, h33⟩ := h
  have c0 := invMix_mix_col s.m00 s.m10 s.m20 s.m30 h00 h10 h20 h30
  have c1 := invMix_mix_col s.m01 s.m11 s.m21 s.m31 h01 h11 h21 h31
  have c2 := invMix_mix_col s.m02 s.m12 s.m22 s.m32 h02 h12 h22 h32
  have c3 := invMix_mix_col s.m03 s.m13 s.m23 s.m33 h03 h13 h23 h33
  ext
  · exact c0.1
  · exact c1.1
  · exact c2.1
  · exact c3.1
  · exact c0.2.1
  · exact c1.2.1
  · exact c2.2.1
  · exact c3.2.1
  · exact c0.2.2.1
  · exact c1.2.2.1
  · exact c2.2.2.1
  · exact c3.2.2.1
  · exact c0.2.2.2
  · exact c1.2.2.2
  · exact c2.2.2.2
  · exact c3.2.2.2

/-! ## Cell bounds are preserved along the pipeline -/

theorem cellsLt_substituteBytes (s : StateMat) : cellsLt (substituteBytes s) :=
  ⟨sbox_getD_lt _, sbox_getD_lt _, sbox_getD_lt _, sbox_getD_lt _,
   sbox_getD_lt _, sbox_getD_lt _, sbox_getD_lt _, sbox_getD_lt _,
   sbox_getD_lt _, sbox_getD_lt _, sbox_getD_lt _, sbox_getD_lt _,
   sbox_getD_lt _, sbox_getD_lt _, sbox_getD_lt _, sbox_getD_lt _⟩

theorem cellsLt_shiftRows {s : StateMat} (h : cellsLt s) : cellsLt (shiftRows s) := by
  obtain ⟨h00, h01, h02, h03, h10, h11, h12, h13,
    h20, h21, h22, h23, h30, h31, h32, h33⟩ := h
  exact ⟨h00, h01, h02, h03, h11, h12, h13, h10,
    h22, h23, h20, h21, h33, h30, h31, h32⟩

theorem cellsLt_mixColumns {s : StateMat} (h : cellsLt s) : cellsLt (mixColumns s) := by
  obtain ⟨h00, h01, h02, h03, h10, h11, h12, h13,
    h20, h21, h22, h23, h30, h31, h32, h33⟩ := h
  refine ⟨?_, ?_, ?_, ?_, ?_, ?_, ?_, ?_, ?_, ?_, ?_, ?_, ?_, ?_, ?_, ?_⟩ <;>
    · first
      | exact xor_lt_256 (xor_lt_256 (xor_lt_256 (multiplyByTwo_lt _)
          (multiplyByThree_lt (by assumption))) (by assumption)) (by assumption)
      | exact xor_lt_256 (xor_lt_256 (xor_lt_256 (by assumption) (multiplyByTwo_lt _))
          (multiplyByThree_lt (by assumption))) (by assumption)
      | exact xor_lt_256 (xor_lt_256 (xor_lt_256 (by assumption) (by assumption))
          (multiplyByTwo_lt _)) (multiplyByThree_lt (by assumption))
      | exact xor_lt_256 (xor_lt_256 (xor_lt_256 (multiplyByThree_lt (by assumption))
          (by assumption)) (by assumption)) (multiplyByTwo_lt _)

theorem cellsLt_addRoundKey {s k : StateMat} (hs : cellsLt s) (hk : cellsLt k) :
    cellsLt (addRoundKey s k) := by
  obtain ⟨h00, h01, h02, h03, h10, h11, h12, h13,
    h20, h21, h22, h23, h30, h31, h32, h33⟩ := hs
  obtain ⟨g00, g01, g02, g03, g10, g11, g12, g13,
    g20, g21, g22, g23, g30, g31, g32, g33⟩ := hk
  exact ⟨xor_lt_256 h00 g00, xor_lt_256 h01 g01, xor_lt_256 h02 g02, xor_lt_256 h03 g03,
    xor_lt_256 h10 g10, xor_lt_256 h11 g11, xor_lt_256 h12 g12, xor_lt_256 h13 g13,
    xor_lt_256 h20 g20, xor_lt_256 h21 g21, xor_lt_256 h22 g22, xor_lt_256 h23 g23,
    xor_lt_256 h30 g30, xor_lt_256 h31 g31, xor_lt_256 h32 g32, xor_lt_256 h33 g33⟩

theorem cellsLt_encStep {k : StateMat} (s : StateMat) (hk : cellsLt k) :
    cellsLt (addRoundKey (mixColumns (shiftRows (substituteBytes s))) k) :=
  cellsLt_addRoundKey (cellsLt_mixColumns (cellsLt_shiftRows (cellsLt_substituteBytes s))) hk

/-! ## Byte/state conversions -/

theorem bytesToStateMatrix_stateMatrixToBytes (t : StateMat) :
    bytesToStateMatrix (stateMatrixToBytes t) = t := rfl

theorem stateMatrixToBytes_bytesToStateMatrix (b : List Nat) (h : b.length = 16) :
    stateMatrixToBytes (bytesToStateMatrix b) = b := by
  apply List.ext_getElem
  · simp [stateMatrixToBytes, h]
  · intro i h1 h2
    have h16 : i < 16 := by
      simpa [stateMatrixToBytes] using h1
    interval_cases i <;>
      simp [stateMatrixToBytes, bytesToStateMatrix, List.getElem?_eq_getElem h2]

theorem stateMatrixToBytes_length (t : StateMat) : (stateMatrixToBytes t).length = 16 := rfl

theorem cellsLt_bytesToStateMatrix {b : List Nat} (h : ∀ x ∈ b, x < 256) :
    cellsLt (bytesToStateMatrix b) := by
  refine ⟨?_, ?_, ?_, ?_, ?_, ?_, ?_, ?_, ?_, ?_, ?_, ?_, ?_, ?_, ?_, ?_⟩ <;>
    exact getD_lt_of_all h (by norm_num)

/-! ## The decryption round loop undoes the encryption round loop -/

theorem foldl_getD_enc (rks : List StateMat) (L : List Nat) (s : StateMat) :
    L.foldl (fun t round =>
        addRoundKey (mixColumns (shiftRows (substituteBytes t))) (rks.getD round default)) s =
      (L.map fun r => rks.getD r default).foldl
        (fun t k => addRoundKey (mixColumns (shiftRows (substituteBytes t))) k) s := by
  induction L generalizing s with
  | nil => rfl
  | cons a L ih => simp only [List.foldl_cons, List.map_cons, ih]

theorem foldl_getD_dec (rks : List StateMat) (L : List Nat) (s : StateMat) :
    L.foldl (fun t round =>
        inverseMixColumns (addRoundKey (inverseSubstituteBytes (inverseShiftRows t))
          (rks.getD round default))) s =
      (L.map fun r => rks.getD r default).foldl
        (fun t k => inverseMixColumns (addRoundKey (inverseSubstituteBytes (inverseShiftRows t)) k)) s := by
  induction L generalizing s with
  | nil => rfl
  | cons a L ih => simp only [List.foldl_cons, List.map_cons, ih]

theorem dec_enc_fold (ks : List StateMat) (s : StateMat)
    (hks : ∀ k ∈ ks, cellsLt k) :
    ks.reverse.foldl
        (fun t k => inverseMixColumns (addRoundKey (inverseSubstituteBytes (inverseShiftRows t)) k))
        (shiftRows (substituteBytes (ks.foldl
          (fun t k => addRoundKey (mixColumns (shiftRows (substituteBytes t))) k) s))) =
      shiftRows (substituteBytes s) := by
  induction ks generalizing s with
  | nil => rfl
  | cons k ks ih =>
    have hk : cellsLt k := hks k (by simp)
    have hks' : ∀ k' ∈ ks, cellsLt k' := fun k' h => hks k' (by simp [h])
    simp only [List.foldl_cons, List.reverse_cons, List.foldl_append, List.foldl_nil]
    rw [ih (addRoundKey (mixColumns (shiftRows (substituteBytes s))) k) hks']
    rw [inverseShiftRows_shiftRows,
      inverseSubstituteBytes_substituteBytes _ (cellsLt_encStep s hk),
      addRoundKey_addRoundKey,
      inverseMixColumns_mixColumns _ (cellsLt_shiftRows (cellsLt_substituteBytes s))]

/-- Core block round-trip, for any round-key list whose reads are all
byte matrices. -/
theorem decBlock_encBlock (block : List Nat) (rks : List StateMat)
    (hb : block.length = 16) (hball : ∀ x ∈ block, x < 256)
    (hrk : ∀ r : Nat, cellsLt (rks.getD r default)) :
    decryptBlock (encryptBlock block rks) rks = block := by
  have hcells : cellsLt (bytesToStateMatrix block) := cellsLt_bytesToStateMatrix hball
  simp only [encryptBlock, decryptBlock]
  rw [bytesToStateMatrix_stateMatrixToBytes, addRoundKey_addRoundKey,
    foldl_getD_enc, foldl_getD_dec, List.map_reverse,
    dec_enc_fold _ _ (by
      intro k hk
      rcases List.mem_map.mp hk with ⟨r, _, rfl⟩
      exact hrk r),
    inverseShiftRows_shiftRows,
    inverseSubstituteBytes_substituteBytes _ (cellsLt_addRoundKey hcells (hrk 0)),
    addRoundKey_addRoundKey,
    stateMatrixToBytes_bytesToStateMatrix _ hb]

/-! ## Key-schedule bounds: every produced word and round key holds bytes -/

theorem substituteWord_all_lt (w : List Nat) : ∀ b ∈ substituteWord w, b < 256 := by
  intro b hb
  rcases List.mem_map.mp hb with ⟨a, _, rfl⟩
  exact sbox_getD_lt a

theorem xorWords_all_lt : ∀ (w1 w2 : List Nat), (∀ b ∈ w1, b < 256) → (∀ b ∈ w2, b < 256) →
    ∀ b ∈ xorWords w1 w2, b < 256 := by
  intro w1
  induction w1 with
  | nil => intro w2 _ _ b hb; simp [xorWords] at hb
  | cons a w1 ih =>
    intro w2 h1 h2 b hb
    simp only [xorWords, List.mem_cons] at hb
    rcases hb with rfl | hb
    · refine xor_lt_256 (h1 a (by simp)) ?_
      cases w2 with
      | nil => norm_num [List.headD]
      | cons c w2 => exact h2 c (by simp)
    · exact ih (w2.drop 1) (fun x hx => h1 x (by simp [hx]))
        (fun x hx => h2 x (List.mem_of_mem_drop hx)) b hb

theorem words_getD_all_lt {ws : List (List Nat)} (hws : ∀ w ∈ ws, ∀ b ∈ w, b < 256)
    (i : Nat) : ∀ b ∈ ws.getD i [], b < 256 := by
  intro b hb
  rcases getD_mem_or_default ws i [] with h | h
  · exact hws _ h b hb
  · rw [h] at hb; simp at hb

theorem keyWords_all_lt (key : List Nat) (hk : ∀ x ∈ key, x < 256) :
    ∀ w ∈ keyWords key, ∀ b ∈ w, b < 256 := by
  have hstep : ∀ (L : List Nat) (ws : List (List Nat)),
      (∀ w ∈ ws, ∀ b ∈ w, b < 256) →
      ∀ w ∈ L.foldl (fun words i =>
          let temp := words.getD (i - 1) []
          let temp :=
            if i % KEY_SIZE_WORDS = 0 then
              let t := substituteWord (rotateWord temp)
              t.set 0 (t.getD 0 0 ^^^ ROUND_CONSTANTS.getD (i / KEY_SIZE_WORDS) 0)
            else if i % KEY_SIZE_WORDS = 4 then
              substituteWord temp
            else temp
          words ++ [xorWords temp (words.getD (i - KEY_SIZE_WORDS) [])]) ws,
        ∀ b ∈ w, b < 256 := by
    intro L
    induction L with
    | nil => intro ws hws; exact hws
    | cons i L ih =>
      intro ws hws
      simp only [List.foldl_cons]
      apply ih
      intro w hw
      rcases List.mem_append.mp hw with hw | hw
      · exact hws w hw
      · have hw' : w = xorWords
            (if i % KEY_SIZE_WORDS = 0 then
              (substituteWord (rotateWord (ws.getD (i - 1) []))).set 0
                ((substituteWord (rotateWord (ws.getD (i - 1) []))).getD 0 0 ^^^
                  ROUND_CONSTANTS.getD (i / KEY_SIZE_WORDS) 0)
            else if i % KEY_SIZE_WORDS = 4 then
              substituteWord (ws.getD (i - 1) [])
            else ws.getD (i - 1) [])
            (ws.getD (i - KEY_SIZE_WORDS) []) := by
          simpa using hw
        subst hw'
        apply xorWords_all_lt
        · intro b hb
          split at hb
          · rcases List.mem_or_eq_of_mem_set hb with hb | rfl
            · exact substituteWord_all_lt _ b hb
            · exact xor_lt_256
                (getD_lt_of_all (substituteWord_all_lt _) (by norm_num))
                (getD_lt_of_all ROUND_CONSTANTS_entries_lt (by norm_num))
          · split at hb
            · exact substituteWord_all_lt _ b hb
            · exact words_getD_all_lt hws _ b hb
        · exact words_getD_all_lt hws _
  intro w hw
  refine hstep _ _ ?_ w (by simpa [keyWords] using hw)
  intro w' hw' b hb
  rcases List.mem_map.mp hw' with ⟨j, _, rfl⟩
  have : b = key.getD (4 * j) 0 ∨ b = key.getD (4 * j + 1) 0 ∨
      b = key.getD (4 * j + 2) 0 ∨ b = key.getD (4 * j + 3) 0 := by
    simpa using hb
  rcases this with rfl | rfl | rfl | rfl <;> exact getD_lt_of_all hk (by norm_num)

theorem cellsLt_default : cellsLt (default : StateMat) := by
  unfold cellsLt
  decide

theorem getD_map_range {α : Type} (f : Nat → α) {n r : Nat} (hr : r < n) (d : α) :
    ((List.range n).map f).getD r d = f r := by
  rw [getD_of_lt _ _ _ (by simpa using hr)]
  simp

theorem cellsLt_wordsToRoundKey {w0 w1 w2 w3 : List Nat}
    (h0 : ∀ b ∈ w0, b < 256) (h1 : ∀ b ∈ w1, b < 256)
    (h2 : ∀ b ∈ w2, b < 256) (h3 : ∀ b ∈ w3, b < 256) :
    cellsLt (wordsToRoundKey w0 w1 w2 w3) := by
  refine ⟨?_, ?_, ?_, ?_, ?_, ?_, ?_, ?_, ?_, ?_, ?_, ?_, ?_, ?_, ?_, ?_⟩ <;>
    first
    | exact getD_lt_of_all h0 (by norm_num)
    | exact getD_lt_of_all h1 (by norm_num)
    | exact getD_lt_of_all h2 (by norm_num)
    | exact getD_lt_of_all h3 (by norm_num)

theorem expandKey_length (key : List Nat) : (expandKey key).length = 15 := by
  simp [expandKey, NUMBER_OF_ROUNDS]

theorem expandKey_getD (key : List Nat) {r : Nat} (hr : r < 15) :
    (expandKey key).getD r default =
      wordsToRoundKey ((keyWords key).getD (r * 4) []) ((keyWords key).getD (r * 4 + 1) [])
        ((keyWords key).getD (r * 4 + 2) []) ((keyWords key).getD (r * 4 + 3) []) := by
  simp only [expandKey]
  exact getD_map_range _ (by simpa [NUMBER_OF_ROUNDS] using hr) _

theorem expandKey_cells (key : List Nat) (hk : ∀ x ∈ key, x < 256) (r : Nat) :
    cellsLt ((expandKey key).getD r default) := by
  have hword : ∀ i, ∀ b ∈ (keyWords key).getD i [], b < 256 :=
    words_getD_all_lt (keyWords_all_lt key hk)
  rcases Nat.lt_or_ge r 15 with hr | hr
  · rw [expandKey_getD key hr]
    exact cellsLt_wordsToRoundKey (hword _) (hword _) (hword _) (hword _)
  · rw [getD_of_le _ _ _ (by rw [expandKey_length]; omega)]
    exact cellsLt_default

/-! ## Padding characterization -/

theorem drop_eq_replicate_iff (data : List Nat) (n : Nat) (hnL : n ≤ data.length) :
    data.drop (data.length - n) = List.replicate n n ↔
      ∀ i, 1 ≤ i → i ≤ n → data.getD (data.length - i) 0 = n := by
  constructor
  · intro h i h1 h2
    have hlt : data.length - i < data.length := by omega
    have hkey : data[data.length - i]? = some n := by
      have := congrArg (fun l => l[n - i]?) h
      simp only [List.getElem?_drop, List.getElem?_replicate] at this
      rw [if_pos (by omega)] at this
      rw [show data.length - n + (n - i) = data.length - i from by omega] at this
      exact this
    rw [getD_of_lt _ _ _ hlt]
    rw [List.getElem?_eq_getElem hlt] at hkey
    exact Option.some.inj hkey
  · intro h
    apply List.ext_getElem?
    intro j
    rw [List.getElem?_drop, List.getElem?_replicate]
    by_cases hj : j < n
    · rw [if_pos hj]
      have h2 := h (n - j) (by omega) (by omega)
      have hlt : data.length - (n - j) < data.length := by omega
      rw [getD_of_lt _ _ _ hlt] at h2
      rw [show data.length - n + j = data.length - (n - j) from by omega]
      rw [List.getElem?_eq_getElem hlt, h2]
    · rw [if_neg hj]
      exact List.getElem?_eq_none (by omega)

theorem unpad_loop_iff (data : List Nat) (n : Nat) (hn : 1 ≤ n) :
    ((List.range' 1 n).all fun i =>
        decide (i ≤ data.length) && (data.getD (data.length - i) 0 == n)) = true ↔
      data.drop (data.length - n) = List.replicate n n := by
  rw [List.all_eq_true]
  constructor
  · intro h
    have hnL : n ≤ data.length := by
      by_contra hc
      obtain ⟨h1, h2⟩ := by simpa using h n (by simp; omega)
      omega
    rw [drop_eq_replicate_iff data n hnL]
    intro i h1 h2
    obtain ⟨ha, hb⟩ := by simpa using h i (by simp; omega)
    rw [List.getD_eq_getElem?_getD]
    exact hb
  · intro h
    have hnL : n ≤ data.length := by
      by_contra hc
      have hlen := congrArg List.length h
      simp only [List.length_drop, List.length_replicate] at hlen
      omega
    intro i hi
    rw [List.mem_range'_1] at hi
    simp only [Bool.and_eq_true, decide_eq_true_eq, beq_iff_eq]
    refine ⟨by omega, ?_⟩
    exact (drop_eq_replicate_iff data n hnL).mp h i (by omega) (by omega)

/-- Closed-form behaviour of `unpadData` on non-empty input: with
`n` the final byte, it fails iff `n = 0`, `n > 16`, or the last `n`
bytes are not all `n` (expressed as a suffix equation), and otherwise
strips exactly `n` bytes. -/
theorem unpadData_char (data : List Nat) (hne : data ≠ []) :
    unpadData data =
      if data.getD (data.length - 1) 0 > 16 ∨ data.getD (data.length - 1) 0 = 0 then
        .error "Invalid padding"
      else if data.drop (data.length - data.getD (data.length - 1) 0) =
          List.replicate (data.getD (data.length - 1) 0) (data.getD (data.length - 1) 0) then
        .ok (data.take (data.length - data.getD (data.length - 1) 0))
      else .error "Invalid padding" := by
  have hL : ¬(data.length = 0) := by
    simpa [List.length_eq_zero] using hne
  simp only [unpadData, BLOCK_SIZE]
  rw [if_neg hL]
  by_cases h1 : data.getD (data.length - 1) 0 > 16 ∨ data.getD (data.length - 1) 0 = 0
  · rw [if_pos h1, if_pos h1]
  · rw [if_neg h1, if_neg h1]
    have hn1 : 1 ≤ data.getD (data.length - 1) 0 := by omega
    by_cases h2 : data.drop (data.length - data.getD (data.length - 1) 0) =
        List.replicate (data.getD (data.length - 1) 0) (data.getD (data.length - 1) 0)
    · rw [if_pos ((unpad_loop_iff data _ hn1).mpr h2), if_pos h2]
    · rw [if_neg (fun hc => h2 ((unpad_loop_iff data _ hn1).mp hc)), if_neg h2]

/-! ## Padding round-trip -/

theorem padData_eq (data : List Nat) :
    padData data =
      data ++ List.replicate (16 - data.length % 16) (16 - data.length % 16) := by
  simp [padData, BLOCK_SIZE]

theorem padData_length (data : List Nat) :
    (padData data).length = data.length + (16 - data.length % 16) := by
  simp [padData, BLOCK_SIZE]

theorem padData_mod (data : List Nat) : (padData data).length % 16 = 0 := by
  rw [padData_length]
  have : data.length % 16 < 16 := Nat.mod_lt _ (by norm_num)
  omega

theorem padData_ne_nil (data : List Nat) : padData data ≠ [] := by
  intro hc
  have hlen := congrArg List.length hc
  rw [padData_length] at hlen
  have : data.length % 16 < 16 := Nat.mod_lt _ (by norm_num)
  simp at hlen
  omega

theorem padData_all_lt {data : List Nat} (h : ∀ x ∈ data, x < 256) :
    ∀ x ∈ padData data, x < 256 := by
  intro x hx
  rw [padData_eq] at hx
  rcases List.mem_append.mp hx with hx | hx
  · exact h x hx
  · rw [List.eq_of_mem_replicate hx]
    have : data.length % 16 < 16 := Nat.mod_lt _ (by norm_num)
    omega

theorem unpad_padData (data : List Nat) : unpadData (padData data) = .ok data := by
  have hmod : data.length % 16 < 16 := Nat.mod_lt _ (by norm_num)
  have hn1 : 1 ≤ 16 - data.length % 16 := by omega
  have hpe := padData_eq data
  have hlen := padData_length data
  rw [unpadData_char _ (padData_ne_nil data)]
  have hlast : (padData data).getD ((padData data).length - 1) 0 = 16 - data.length % 16 := by
    rw [List.getD_eq_getElem?_getD, hlen, hpe,
      show data.length + (16 - data.length % 16) - 1 =
        data.length + (16 - data.length % 16 - 1) from by omega,
      List.getElem?_append_right (by omega),
      show data.length + (16 - data.length % 16 - 1) - data.length =
        16 - data.length % 16 - 1 from by omega,
      List.getElem?_replicate, if_pos (by omega)]
    rfl
  rw [hlast, if_neg (by omega)]
  have hsub : (padData data).length - (16 - data.length % 16) = data.length := by
    rw [hlen]; omega
  have hdrop : (padData data).drop ((padData data).length - (16 - data.length % 16)) =
      List.replicate (16 - data.length % 16) (16 - data.length % 16) := by
    rw [hsub, hpe]
    exact List.drop_left' rfl
  rw [if_pos hdrop, hsub, hpe, List.take_left' rfl]

/-! ## Slicing into 16-byte blocks -/

theorem chunks16_flatten (l : List Nat) : (chunks16 l).flatten = l := by
  rw [chunks16]
  split
  next h => simp [h]
  next h =>
    rw [List.flatten_cons, chunks16_flatten (l.drop 16), List.take_append_drop]
termination_by l.length
decreasing_by
  have hne' : ¬l = [] := by assumption
  have := List.length_pos.mpr hne'
  simp only [List.length_drop]
  omega

theorem chunks16_length_all (l : List Nat) (h : l.length % 16 = 0) :
    ∀ c ∈ chunks16 l, c.length = 16 := by
  rw [chunks16]
  split
  next => simp
  next hne =>
    have hpos := List.length_pos.mpr hne
    intro c hc
    rcases List.mem_cons.mp hc with rfl | hc
    · simp only [List.length_take]
      omega
    · exact chunks16_length_all (l.drop 16)
        (by simp only [List.length_drop]; omega) c hc
termination_by l.length
decreasing_by
  have hne' : ¬l = [] := by assumption
  have := List.length_pos.mpr hne'
  simp only [List.length_drop]
  omega

theorem chunks16_all_lt (l : List Nat) (h : ∀ x ∈ l, x < 256) :
    ∀ c ∈ chunks16 l, ∀ x ∈ c, x < 256 := by
  rw [chunks16]
  split
  next => simp
  next hne =>
    intro c hc
    rcases List.mem_cons.mp hc with rfl | hc
    · exact fun x hx => h x (List.mem_of_mem_take hx)
    · exact chunks16_all_lt (l.drop 16)
        (fun x hx => h x (List.mem_of_mem_drop hx)) c hc
termination_by l.length
decreasing_by
  have hne' : ¬l = [] := by assumption
  have := List.length_pos.mpr hne'
  simp only [List.length_drop]
  omega

theorem chunks16_flatten_of_16 (bs : List (List Nat))
    (h : ∀ b ∈ bs, b.length = 16) : chunks16 bs.flatten = bs := by
  induction bs with
  | nil => rw [chunks16]; simp
  | cons b bs ih =>
    have hb : b.length = 16 := h b (by simp)
    rw [chunks16]
    split
    next he =>
      exfalso
      rw [List.flatten_cons] at he
      rcases List.append_eq_nil.mp he with ⟨hb', -⟩
      rw [hb'] at hb
      simp at hb
    next he =>
      rw [List.flatten_cons, List.take_left' hb, List.drop_left' hb,
        ih fun c hc => h c (by simp [hc])]

theorem encryptBlock_length (block : List Nat) (rks : List StateMat) :
    (encryptBlock block rks).length = 16 := rfl

/-! ## Claim theorems -/

/-- C2: for every 32-byte key (with `roundKeys = expandKey key`) and
every 16-byte block, `decryptBlock (encryptBlock block rks) rks`
returns the original block. -/
theorem aes_block_roundTrip (key block : List Nat)
    (hkeyLen : key.length = 32) (hkey : ∀ x ∈ key, x < 256)
    (hblockLen : block.length = 16) (hblock : ∀ x ∈ block, x < 256) :
    decryptBlock (encryptBlock block (expandKey key)) (expandKey key) = block :=
  decBlock_encBlock block (expandKey key) hblockLen hblock (expandKey_cells key hkey)

/-- Witness for C2 at a concrete key and block. -/
theorem aes_block_roundTrip_witness :
    (List.replicate 32 1).length = 32 ∧ (List.replicate 16 7).length = 16 ∧
      decryptBlock (encryptBlock (List.replicate 16 7) (expandKey (List.replicate 32 1)))
        (expandKey (List.replicate 32 1)) = List.replicate 16 7 :=
  ⟨by decide, by decide,
    aes_block_roundTrip (List.replicate 32 1) (List.replicate 16 7)
      (by decide) (by decide) (by decide) (by decide)⟩

/-- C4: `inverseMixColumns (mixColumns s) = s` for every state matrix
of bytes, where `mixColumns` is the (2,3,1,1) circulant and
`inverseMixColumns` the (14,11,13,9) circulant over GF(2^8). -/
theorem aes_mixColumns_inverse (s : StateMat) (h : cellsLt s) :
    inverseMixColumns (mixColumns s) = s :=
  inverseMixColumns_mixColumns s h

/-- Witness for C4 at a concrete state matrix. -/
theorem aes_mixColumns_inverse_witness :
    cellsLt ⟨0, 1, 2, 3, 255, 254, 253, 252, 16, 32, 64, 128, 99, 130, 201, 17⟩ ∧
      inverseMixColumns (mixColumns ⟨0, 1, 2, 3, 255, 254, 253, 252, 16, 32, 64, 128, 99, 130, 201, 17⟩) =
        ⟨0, 1, 2, 3, 255, 254, 253, 252, 16, 32, 64, 128, 99, 130, 201, 17⟩ :=
  ⟨by unfold cellsLt; decide,
    aes_mixColumns_inverse _ (by unfold cellsLt; decide)⟩

/-- C1: stream round-trip with `trackRounds = false` on both sides:
decrypting the encryption of any byte sequence under any 32-byte key
returns the original sequence. -/
theorem aes_stream_roundTrip (bytes key : List Nat)
    (hbytes : ∀ x ∈ bytes, x < 256)
    (hkeyLen : key.length = 32) (hkey : ∀ x ∈ key, x < 256) :
    decryptText (encryptText bytes key false) key false = .ok bytes := by
  have hrk := expandKey_cells key hkey
  have hmod := padData_mod bytes
  have hlt := padData_all_lt hbytes
  simp only [encryptText, decryptText, Bool.false_eq_true, if_false]
  rw [chunks16_flatten_of_16 _ (by
    intro b hb
    rcases List.mem_map.mp hb with ⟨c, -, rfl⟩
    exact encryptBlock_length c _)]
  have hmaps : List.map (fun block => decryptBlock block (expandKey key))
      (List.map (fun block => encryptBlock block (expandKey key))
        (chunks16 (padData bytes))) = chunks16 (padData bytes) := by
    rw [List.map_map]
    exact (List.map_congr_left fun c hc =>
      decBlock_encBlock c _ (chunks16_length_all _ hmod c hc)
        (chunks16_all_lt _ hlt c hc) hrk).trans (List.map_id _)
  rw [hmaps, chunks16_flatten, unpad_padData]

/-- Witness for C1 at a concrete plaintext and key. -/
theorem aes_stream_roundTrip_witness :
    (∀ x ∈ [0, 100, 255], x < 256) ∧ (List.replicate 32 2).length = 32 ∧
      decryptText (encryptText [0, 100, 255] (List.replicate 32 2) false)
        (List.replicate 32 2) false = .ok [0, 100, 255] :=
  ⟨by decide, by decide,
    aes_stream_roundTrip [0, 100, 255] (List.replicate 32 2)
      (by decide) (by decide) (by decide)⟩

/-- C5: `unpadData (padData bytes) = bytes` for every byte sequence;
`padData` appends exactly `n = 16 - len % 16` bytes of value `n`
(so at least one, and a full block of sixteen 16s when the length is
already a multiple of 16), and the padded length is a multiple of 16. -/
theorem aes_padding_roundTrip (data : List Nat) :
    unpadData (padData data) = .ok data ∧
      padData data =
        data ++ List.replicate (16 - data.length % 16) (16 - data.length % 16) ∧
      1 ≤ 16 - data.length % 16 ∧
      (data.length % 16 = 0 → padData data = data ++ List.replicate 16 16) ∧
      (padData data).length % 16 = 0 := by
  refine ⟨unpad_padData data, padData_eq data, ?_, ?_, padData_mod data⟩
  · have : data.length % 16 < 16 := Nat.mod_lt _ (by norm_num)
    omega
  · intro h
    rw [padData_eq, h]

/-- C10: `unpadData` on the empty sequence returns the empty sequence
without raising. -/
theorem aes_unpad_empty : unpadData [] = .ok [] := rfl

/-- C6: on non-empty input, `unpadData` fails with the invalid-padding
error iff the final byte `n` is 0 or exceeds 16 or the last `n` bytes
are not all `n` (the suffix of length `n` differs from `replicate n n`,
which also covers `n` longer than the whole input); otherwise it
returns the input with the trailing `n` bytes stripped. -/
theorem aes_unpad_raises_iff (data : List Nat) (hne : data ≠ []) :
    (unpadData data = .error "Invalid padding" ↔
      data.getD (data.length - 1) 0 = 0 ∨ data.getD (data.length - 1) 0 > 16 ∨
        data.drop (data.length - data.getD (data.length - 1) 0) ≠
          List.replicate (data.getD (data.length - 1) 0) (data.getD (data.length - 1) 0)) ∧
    ((data.getD (data.length - 1) 0 ≠ 0 ∧ ¬data.getD (data.length - 1) 0 > 16 ∧
        data.drop (data.length - data.getD (data.length - 1) 0) =
          List.replicate (data.getD (data.length - 1) 0) (data.getD (data.length - 1) 0)) →
      unpadData data = .ok (data.take (data.length - data.getD (data.length - 1) 0))) := by
  rw [unpadData_char data hne]
  by_cases h1 : data.getD (data.length - 1) 0 > 16 ∨ data.getD (data.length - 1) 0 = 0
  · rw [if_pos h1]
    constructor
    · simp only [true_iff]
      tauto
    · intro hcond
      exfalso
      tauto
  · rw [if_neg h1]
    by_cases h2 : data.drop (data.length - data.getD (data.length - 1) 0) =
        List.replicate (data.getD (data.length - 1) 0) (data.getD (data.length - 1) 0)
    · rw [if_pos h2]
      constructor
      · constructor
        · intro hc
          exact absurd hc (by simp)
        · intro hc
          exfalso
          tauto
      · intro _
        rfl
    · rw [if_neg h2]
      constructor
      · simp only [true_iff]
        tauto
      · intro hcond
        exfalso
        exact h2 hcond.2.2

/-- Witness for C6: valid two-byte padding is stripped. -/
theorem aes_unpad_raises_iff_witness : unpadData [1, 2, 2] = .ok [1] :=
  (aes_unpad_raises_iff [1, 2, 2] (by decide)).2 (by decide)

/-! ## Tracked and untracked stream paths agree -/

theorem foldl_map_comm {α β γ : Type} (R : List γ) :
    ∀ (h : β → α) (g : γ → α → α) (l : List β),
      R.foldl (fun sts r => sts.map (g r)) (l.map h) =
        l.map fun x => R.foldl (fun s r => g r s) (h x) := by
  induction R with
  | nil => intro h g l; rfl
  | cons r R ih =>
    intro h g l
    simp only [List.foldl_cons]
    rw [List.map_map]
    exact ih (g r ∘ h) g l
/-- C9: instrumentation does not change results: `encryptText` yields
the same cipher bytes with `trackRounds` true or false, and
`decryptText` the same plain bytes. -/
theorem aes_track_rounds_agnostic (plainBytes cipherBytes key : List Nat) :
    encryptText plainBytes key true = encryptText plainBytes key false ∧
      decryptText cipherBytes key true = decryptText cipherBytes key false := by
  constructor
  · simp only [encryptText, if_true, Bool.false_eq_true, if_false]
    rw [List.map_map, foldl_map_comm, List.map_map, List.map_map]
    exact congrArg List.flatten (List.map_congr_left fun b _ => rfl)
  · simp only [decryptText, if_true, Bool.false_eq_true, if_false]
    rw [List.map_map, foldl_map_comm, List.map_map, List.map_map]
    exact congrArg unpadData (congrArg List.flatten (List.map_congr_left fun b _ => rfl))

/-! ## Key-schedule structure (for the key-expansion claim) -/

theorem foldl_words_length (L : List Nat) (ws : List (List Nat)) :
    (L.foldl (fun words i =>
        words ++
          [xorWords
            (if i % KEY_SIZE_WORDS = 0 then
              (substituteWord (rotateWord (words.getD (i - 1) []))).set 0
                ((substituteWord (rotateWord (words.getD (i - 1) []))).getD 0 0 ^^^
                  ROUND_CONSTANTS.getD (i / KEY_SIZE_WORDS) 0)
            else if i % KEY_SIZE_WORDS = 4 then
              substituteWord (words.getD (i - 1) [])
            else words.getD (i - 1) [])
            (words.getD (i - KEY_SIZE_WORDS) [])]) ws).length =
      ws.length + L.length := by
  induction L generalizing ws with
  | nil => simp
  | cons i L ih =>
    simp only [List.foldl_cons]
    rw [ih]
    simp
    omega

theorem foldl_words_getD_stable (L : List Nat) (ws : List (List Nat)) (j : Nat)
    (hj : j < ws.length) :
    (L.foldl (fun words i =>
        words ++
          [xorWords
            (if i % KEY_SIZE_WORDS = 0 then
              (substituteWord (rotateWord (words.getD (i - 1) []))).set 0
                ((substituteWord (rotateWord (words.getD (i - 1) []))).getD 0 0 ^^^
                  ROUND_CONSTANTS.getD (i / KEY_SIZE_WORDS) 0)
            else if i % KEY_SIZE_WORDS = 4 then
              substituteWord (words.getD (i - 1) [])
            else words.getD (i - 1) [])
            (words.getD (i - KEY_SIZE_WORDS) [])]) ws).getD j [] =
      ws.getD j [] := by
  induction L generalizing ws with
  | nil => rfl
  | cons i L ih =>
    simp only [List.foldl_cons]
    rw [ih _ (by simp only [List.length_append, List.length_cons, List.length_nil]; omega)]
    rw [List.getD_eq_getElem?_getD, List.getD_eq_getElem?_getD,
      List.getElem?_append_left hj]
    exact (List.getD_eq_getElem?_getD ws j []).symm

theorem getD_append_lt {α : Type} (l l' : List α) (j : Nat) (d : α) (h : j < l.length) :
    (l ++ l').getD j d = l.getD j d := by
  rw [List.getD_eq_getElem?_getD, List.getElem?_append_left h,
    ← List.getD_eq_getElem?_getD]

theorem getD_snoc_of_length {α : Type} (l : List α) (a d : α) (i : Nat) (h : l.length = i) :
    (l ++ [a]).getD i d = a := by
  subst h
  rw [List.getD_eq_getElem?_getD, List.getElem?_append_right (Nat.le_refl _)]
  simp

theorem keyWords_split (key : List Nat) (i : Nat) (h8 : 8 ≤ i) (h60 : i < 60) :
    List.range' KEY_SIZE_WORDS (4 * (NUMBER_OF_ROUNDS + 1) - KEY_SIZE_WORDS) =
      List.range' KEY_SIZE_WORDS (i - 8) ++ i :: List.range' (i + 1) (51 - (i - 8)) := by
  have hK : KEY_SIZE_WORDS = 8 := rfl
  have h1 := List.range'_append KEY_SIZE_WORDS (i - 8) (52 - (i - 8)) 1
  rw [show KEY_SIZE_WORDS + 1 * (i - 8) = i from by omega] at h1
  rw [show 52 - (i - 8) + (i - 8) = 52 from by omega] at h1
  rw [show 4 * (NUMBER_OF_ROUNDS + 1) - KEY_SIZE_WORDS = 52 from rfl, ← h1]
  congr 1
  rw [show 52 - (i - 8) = (51 - (i - 8)) + 1 from by omega, List.range'_succ]

theorem keyWords_length (key : List Nat) : (keyWords key).length = 60 := by
  simp only [keyWords]
  rw [foldl_words_length]
  simp [KEY_SIZE_WORDS, NUMBER_OF_ROUNDS]

theorem keyWords_getD_init (key : List Nat) (i : Nat) (hi : i < 8) :
    (keyWords key).getD i [] =
      [key.getD (4 * i) 0, key.getD (4 * i + 1) 0,
       key.getD (4 * i + 2) 0, key.getD (4 * i + 3) 0] := by
  simp only [keyWords]
  rw [foldl_words_getD_stable _ _ i (by simp [KEY_SIZE_WORDS]; omega)]
  exact getD_map_range _ (by simp [KEY_SIZE_WORDS]; omega) _

theorem keyWords_getD_rec (key : List Nat) (i : Nat) (h8 : 8 ≤ i) (h60 : i < 60) :
    (keyWords key).getD i [] =
      xorWords
        (if i % KEY_SIZE_WORDS = 0 then
          (substituteWord (rotateWord ((keyWords key).getD (i - 1) []))).set 0
            ((substituteWord (rotateWord ((keyWords key).getD (i - 1) []))).getD 0 0 ^^^
              ROUND_CONSTANTS.getD (i / KEY_SIZE_WORDS) 0)
        else if i % KEY_SIZE_WORDS = 4 then
          substituteWord ((keyWords key).getD (i - 1) [])
        else (keyWords key).getD (i - 1) [])
        ((keyWords key).getD (i - KEY_SIZE_WORDS) []) := by
  have hK : KEY_SIZE_WORDS = 8 := rfl
  set W := (List.range' KEY_SIZE_WORDS (i - 8)).foldl (fun words i =>
      words ++
        [xorWords
          (if i % KEY_SIZE_WORDS = 0 then
            (substituteWord (rotateWord (words.getD (i - 1) []))).set 0
              ((substituteWord (rotateWord (words.getD (i - 1) []))).getD 0 0 ^^^
                ROUND_CONSTANTS.getD (i / KEY_SIZE_WORDS) 0)
          else if i % KEY_SIZE_WORDS = 4 then
            substituteWord (words.getD (i - 1) [])
          else words.getD (i - 1) [])
          (words.getD (i - KEY_SIZE_WORDS) [])])
    ((List.range KEY_SIZE_WORDS).map fun i =>
      [key.getD (4 * i) 0, key.getD (4 * i + 1) 0,
       key.getD (4 * i + 2) 0, key.getD (4 * i + 3) 0]) with hWdef
  have hWlen : W.length = i := by
    rw [hWdef, foldl_words_length]
    simp only [List.length_map, List.length_range, List.length_range']
    omega
  have hfull : keyWords key =
      (List.range' (i + 1) (51 - (i - 8))).foldl (fun words i =>
        words ++
          [xorWords
            (if i % KEY_SIZE_WORDS = 0 then
              (substituteWord (rotateWord (words.getD (i - 1) []))).set 0
                ((substituteWord (rotateWord (words.getD (i - 1) []))).getD 0 0 ^^^
                  ROUND_CONSTANTS.getD (i / KEY_SIZE_WORDS) 0)
            else if i % KEY_SIZE_WORDS = 4 then
              substituteWord (words.getD (i - 1) [])
            else words.getD (i - 1) [])
            (words.getD (i - KEY_SIZE_WORDS) [])])
        (W ++
          [xorWords
            (if i % KEY_SIZE_WORDS = 0 then
              (substituteWord (rotateWord (W.getD (i - 1) []))).set 0
                ((substituteWord (rotateWord (W.getD (i - 1) []))).getD 0 0 ^^^
                  ROUND_CONSTANTS.getD (i / KEY_SIZE_WORDS) 0)
            else if i % KEY_SIZE_WORDS = 4 then
              substituteWord (W.getD (i - 1) [])
            else W.getD (i - 1) [])
            (W.getD (i - KEY_SIZE_WORDS) [])]) := by
    simp only [keyWords]
    rw [keyWords_split key i h8 h60, List.foldl_append, List.foldl_cons, ← hWdef]
  have hW1 : (keyWords key).getD (i - 1) [] = W.getD (i - 1) [] := by
    rw [hfull, foldl_words_getD_stable _ _ (i - 1) (by
      simp only [List.length_append, List.length_cons, List.length_nil, hWlen]
      omega)]
    exact getD_append_lt _ _ _ _ (by rw [hWlen]; omega)
  have hW8 : (keyWords key).getD (i - KEY_SIZE_WORDS) [] = W.getD (i - KEY_SIZE_WORDS) [] := by
    rw [hfull, foldl_words_getD_stable _ _ (i - KEY_SIZE_WORDS) (by
      simp only [List.length_append, List.length_cons, List.length_nil, hWlen]
      rw [hK]
      omega)]
    exact getD_append_lt _ _ _ _ (by rw [hWlen, hK]; omega)
  have hWi : (keyWords key).getD i [] =
      xorWords
        (if i % KEY_SIZE_WORDS = 0 then
          (substituteWord (rotateWord (W.getD (i - 1) []))).set 0
            ((substituteWord (rotateWord (W.getD (i - 1) []))).getD 0 0 ^^^
              ROUND_CONSTANTS.getD (i / KEY_SIZE_WORDS) 0)
        else if i % KEY_SIZE_WORDS = 4 then
          substituteWord (W.getD (i - 1) [])
        else W.getD (i - 1) [])
        (W.getD (i - KEY_SIZE_WORDS) []) := by
    rw [hfull, foldl_words_getD_stable _ _ i (by
      simp only [List.length_append, List.length_cons, List.length_nil, hWlen]
      omega)]
    exact getD_snoc_of_length _ _ _ _ hWlen
  rw [hWi, hW1, hW8]

theorem keyScheduleTransform_eq_code (i : Nat) (w : List Nat) :
    keyScheduleTransform i w =
      if i % 8 = 0 then
        (substituteWord (rotateWord w)).set 0
          ((substituteWord (rotateWord w)).getD 0 0 ^^^ ROUND_CONSTANTS.getD (i / 8) 0)
      else if i % 8 = 4 then
        substituteWord w
      else w := by
  unfold keyScheduleTransform
  by_cases h0 : i % 8 = 0
  · rw [if_pos h0, if_pos h0]
    simp [rotateWord, substituteWord, xorWords, List.headD, List.set]
  · rw [if_neg h0, if_neg h0]

/-- C3: the key schedule builds 60 four-byte words, the first 8 taken
directly from the 32-byte key; every later word `i` is
`transform(words[i-1]) XOR words[i-8]` with the RotWord/SubWord/Rcon
transform at `i mod 8 = 0`, SubWord alone at `i mod 8 = 4`, identity
otherwise; consecutive groups of 4 words are reshaped column-wise into
15 round keys, and `roundKeys[0]` is the key itself reshaped. -/
theorem aes_key_schedule (key : List Nat) (hkeyLen : key.length = 32) :
    (expandKey key).length = 15 ∧
      (keyWords key).length = 60 ∧
      (∀ i, i < 8 → (keyWords key).getD i [] =
        [key.getD (4 * i) 0, key.getD (4 * i + 1) 0,
         key.getD (4 * i + 2) 0, key.getD (4 * i + 3) 0]) ∧
      (∀ i, 8 ≤ i → i < 60 → (keyWords key).getD i [] =
        xorWords (keyScheduleTransform i ((keyWords key).getD (i - 1) []))
          ((keyWords key).getD (i - 8) [])) ∧
      (∀ r, r < 15 → (expandKey key).getD r default =
        wordsToRoundKey ((keyWords key).getD (r * 4) []) ((keyWords key).getD (r * 4 + 1) [])
          ((keyWords key).getD (r * 4 + 2) []) ((keyWords key).getD (r * 4 + 3) [])) ∧
      (expandKey key).getD 0 default = bytesToStateMatrix key := by
  refine ⟨expandKey_length key, keyWords_length key, keyWords_getD_init key, ?_, ?_, ?_⟩
  · intro i h8 h60
    rw [keyWords_getD_rec key i h8 h60, keyScheduleTransform_eq_code]
    rfl
  · intro r hr
    exact expandKey_getD key hr
  · have h0 := keyWords_getD_init key 0 (by norm_num)
    have h1 := keyWords_getD_init key 1 (by norm_num)
    have h2 := keyWords_getD_init key 2 (by norm_num)
    have h3 := keyWords_getD_init key 3 (by norm_num)
    rw [expandKey_getD key (by norm_num)]
    norm_num at h0 h1 h2 h3 ⊢
    rw [h0, h1, h2, h3]
    ext <;> simp [wordsToRoundKey, bytesToStateMatrix, List.getD]

/-- Witness for C3 at a concrete key: 15 round keys, and the word
recurrence at index 8. -/
theorem aes_key_schedule_witness :
    (expandKey (List.replicate 32 5)).length = 15 ∧
      (keyWords (List.replicate 32 5)).getD 8 [] =
        xorWords (keyScheduleTransform 8 ((keyWords (List.replicate 32 5)).getD 7 []))
          ((keyWords (List.replicate 32 5)).getD 0 []) :=
  ⟨(aes_key_schedule (List.replicate 32 5) (by decide)).1,
    (aes_key_schedule (List.replicate 32 5) (by decide)).2.2.2.1 8 (by decide) (by decide)⟩

/-! ## Key-length and stream-input validation (claims C7, C8) -/

theorem getD_take_32 (key : List Nat) (m : Nat) (hm : m < 32) :
    (key.take 32).getD m 0 = key.getD m 0 := by
  rw [List.getD_eq_getElem?_getD, List.getD_eq_getElem?_getD, List.getElem?_take_of_lt hm]

theorem keyWords_take_32 (key : List Nat) : keyWords (key.take 32) = keyWords key := by
  simp only [keyWords]
  congr 1
  apply List.map_congr_left
  intro i hi
  rw [List.mem_range] at hi
  have h8 : i < 8 := by simpa [KEY_SIZE_WORDS] using hi
  rw [getD_take_32 _ _ (by omega), getD_take_32 _ _ (by omega),
    getD_take_32 _ _ (by omega), getD_take_32 _ _ (by omega)]

/-- C7 counterexample: `expandKey` accepts a 33-byte key and produces
15 round keys from it instead of rejecting it.  There is no
`InvalidKeyLength` error anywhere in the code. -/
theorem aes_expandKey_accepts_wrong_length :
    (List.replicate 33 0).length ≠ 32 ∧
      (expandKey (List.replicate 33 0)).length = 15 :=
  ⟨by decide, expandKey_length _⟩

/-- C7 amended: `expandKey` performs no key-length validation: for
every key list it returns exactly 15 round keys, and only the first
32 bytes of the key influence the result (extra bytes are silently
ignored). -/
theorem aes_expandKey_no_validation (key : List Nat) :
    (expandKey key).length = 15 ∧ expandKey key = expandKey (key.take 32) := by
  refine ⟨expandKey_length key, ?_⟩
  simp only [expandKey, keyWords_take_32]

theorem hexDigitVal_lt (c : Char) : hexDigitVal c < 16 := by
  unfold hexDigitVal
  split
  next h =>
    simp only [Bool.and_eq_true, decide_eq_true_eq] at h
    have h2 : c.toNat ≤ 57 := h.2
    omega
  next =>
    split
    next h =>
      simp only [Bool.and_eq_true, decide_eq_true_eq] at h
      have h2 : c.toNat ≤ 102 := h.2
      omega
    next =>
      split
      next h =>
        simp only [Bool.and_eq_true, decide_eq_true_eq] at h
        have h2 : c.toNat ≤ 70 := h.2
        omega
      next => norm_num

theorem parseHexPairs_length : ∀ l : List Char,
    (parseHexPairs l).length = (l.length + 1) / 2
  | [] => by simp [parseHexPairs]
  | [_] => by simp [parseHexPairs]
  | c1 :: c2 :: rest => by
    simp only [parseHexPairs, List.length_cons, parseHexPairs_length rest]
    omega

theorem parseHexPairs_odd_getLast? : ∀ l : List Char, l.length % 2 = 1 →
    ∃ v, v < 16 ∧ (parseHexPairs l).getLast? = some v
  | [] => by intro h; simp at h
  | [c] => fun _ => ⟨hexDigitVal c, hexDigitVal_lt c, rfl⟩
  | c1 :: c2 :: rest => by
    intro h
    obtain ⟨v, hv, hlast⟩ := parseHexPairs_odd_getLast? rest
      (by simp only [List.length_cons] at h; omega)
    refine ⟨v, hv, ?_⟩
    cases hp : parseHexPairs rest with
    | nil => rw [hp] at hlast; simp at hlast
    | cons x xs =>
      simp only [parseHexPairs, hp, List.getLast?_cons_cons]
      rw [← hp, hlast]

/-- C8 counterexample: `hexToBytes` parses an odd-length hex string
without any error (the lone trailing digit becomes its own byte), and
`decryptText` accepts empty input and returns empty plaintext — there
is no input-length check. -/
theorem aes_stream_validation_absent :
    hexToBytes "abc" = [171, 12] ∧
      decryptText [] (List.replicate 32 0) false = .ok [] := by
  constructor
  · decide
  · have hc : chunks16 [] = [] := by rw [chunks16]; simp
    simp only [decryptText, Bool.false_eq_true, if_false, hc, List.map_nil,
      List.flatten_nil]
    rfl

/-- C8 amended: `hexToBytes` strips non-hex characters and decodes two
digits per byte, but an odd digit count is not rejected: the final
byte comes from the lone digit (so it is below 16); and `decryptText`
does not validate its input length — empty input decrypts to empty
output without error. -/
theorem aes_stream_inputs_lenient (s : String) (key : List Nat) :
    (hexToBytes s).length = ((s.data.filter isHexDigitJS).length + 1) / 2 ∧
      ((s.data.filter isHexDigitJS).length % 2 = 1 →
        ∃ v, v < 16 ∧ (hexToBytes s).getLast? = some v) ∧
      decryptText [] key false = .ok [] := by
  refine ⟨parseHexPairs_length _, fun hodd => parseHexPairs_odd_getLast? _ hodd, ?_⟩
  have hc : chunks16 [] = [] := by rw [chunks16]; simp
  simp only [decryptText, Bool.false_eq_true, if_false, hc, List.map_nil,
    List.flatten_nil]
  rfl

/-- Witness for the amended C8 at the odd-length input "abc". -/
theorem aes_stream_inputs_lenient_witness :
    (("abc" : String).data.filter isHexDigitJS).length % 2 = 1 ∧
      (∃ v, v < 16 ∧ (hexToBytes "abc").getLast? = some v) ∧
      decryptText [] [] false = .ok [] :=
  ⟨by decide, (aes_stream_inputs_lenient "abc" []).2.1 (by decide),
    (aes_stream_inputs_lenient "abc" []).2.2⟩
